import Mathlib

set_option maxRecDepth 2000

/-!
Verification of the deferred-payment facilitator core
(FacilitatorService, SettlementService and the facilitator routes).

The TypeScript classes are shallowly embedded as pure functions over an
explicit `FacilitatorState`. JavaScript objects shared by reference between
the authorization store, the settlement queue and the batch/dispute records
are modelled relationally: the state owns one list of authorization records,
and queues, batches and disputes refer to them by `id`. JavaScript numbers
used for money (`parseFloat` of decimal strings, float summation) are
modelled as exact rationals, and millisecond timestamps as naturals; each
operation takes the current `Date.now()` value as an explicit `now`
argument. The SHA-256 digest used by `verifySignature` is an external
library call, so the model is parameterised by an arbitrary
`hash : String → String`.
-/

/-- Status of a payment authorization (packages/shared/src/x402/types.ts,
`AuthorizationStatus`). -/
inductive AuthStatus where
  | pending
  | validated
  | settled
  | disputed
  | expired
deriving DecidableEq, Repr

/-- Status of a settlement batch (`SettlementBatch.status`). -/
inductive BatchStatus where
  | pending
  | processing
  | completed
  | failed
deriving DecidableEq, Repr

/-- Status of a dispute record (`DisputeRecord.status`). -/
inductive DisputeStatus where
  | pending
  | investigating
  | resolved
  | rejected
deriving DecidableEq, Repr

/-- `PaymentAuthorization` from packages/shared/src/x402/types.ts.
`timestamp` and `expiresAt` are millisecond epochs; `amount` is the decimal
string of the record. The optional `dataHash`/`metadata` fields are unused
by the facilitator core and omitted. -/
structure PaymentAuthorization where
  id : String
  agentAddress : String
  merchantAddress : String
  toolName : String
  amount : String
  currency : String
  timestamp : Nat
  expiresAt : Nat
  nonce : String
  signature : String
  status : AuthStatus
deriving DecidableEq, Repr

/-- Per-agent usage record (`AgentUsageTracker` entry in FacilitatorService).
`totalAmount` is a JavaScript number accumulated with `parseFloat`; it is
modelled as an exact rational. -/
structure AgentUsage where
  authorizations : List String
  totalAmount : ℚ
  firstRequestAt : Nat
  lastRequestAt : Nat
  requestCount : Nat
deriving DecidableEq, Repr

/-- `SettlementBatch` from the shared types. The TypeScript field
`authorizations` holds references to the stored authorization objects; the
model keeps their ids and resolves them through the central store. -/
structure SettlementBatch where
  id : String
  agentAddress : String
  merchantAddress : String
  authorizationIds : List String
  totalAmount : String
  currency : String
  status : BatchStatus
  createdAt : Nat
  settledAt : Option Nat := none
  transactionSignature : Option String := none
  error : Option String := none
deriving DecidableEq, Repr

/-- `DisputeRecord` from the shared types; the free-form `evidence`
attachment is modelled opaquely. -/
structure DisputeRecord where
  id : String
  authorizationId : String
  agentAddress : String
  merchantAddress : String
  reason : String
  status : DisputeStatus
  createdAt : Nat
  resolvedAt : Option Nat := none
  resolution : Option String := none
  evidence : Option String := none
deriving DecidableEq, Repr

/-- `SettlementThreshold` configuration: decimal-string amount threshold,
time threshold in seconds, count threshold. -/
structure SettlementThreshold where
  amountThreshold : String
  timeThreshold : Nat
  countThreshold : Nat
deriving DecidableEq, Repr

/-- The private state of a `FacilitatorService` instance. -/
structure FacilitatorState where
  authorizations : List PaymentAuthorization
  agentUsage : List (String × AgentUsage)
  settlementQueue : List String
  settlementBatches : List SettlementBatch
  disputes : List DisputeRecord
  settlementThresholds : SettlementThreshold
deriving DecidableEq, Repr

/-- The state of a freshly constructed `FacilitatorService`. -/
def initState (th : SettlementThreshold) : FacilitatorState :=
  { authorizations := []
    agentUsage := []
    settlementQueue := []
    settlementBatches := []
    disputes := []
    settlementThresholds := th }

/-- Dictionary lookup in the authorization store (`this.authorizations[id]`).
The store is keyed by `id`, so lookup finds the record with that id. -/
def lookupAuth (auths : List PaymentAuthorization) (id : String) :
    Option PaymentAuthorization :=
  auths.find? (fun a => a.id == id)

/-- `getAuthorization` of FacilitatorService. -/
def getAuthorization (s : FacilitatorState) (id : String) :
    Option PaymentAuthorization :=
  lookupAuth s.authorizations id

/-- Lookup in the `agentUsage` dictionary (`this.agentUsage[agentAddress]`). -/
def lookupUsage (s : FacilitatorState) (agent : String) : Option AgentUsage :=
  (s.agentUsage.find? (fun p => p.1 == agent)).map Prod.snd

/-- Mutation of the `status` field of the stored authorization objects whose
id is listed (JavaScript mutates the shared object in place; the model
rewrites the record in the central store). -/
def setStatusIds (auths : List PaymentAuthorization) (ids : List String)
    (st : AuthStatus) : List PaymentAuthorization :=
  auths.map fun a => if ids.contains a.id then { a with status := st } else a

/-- Decimal digits to a natural number. -/
def digitsToNat (l : List Char) : Nat :=
  l.foldl (fun n c => n * 10 + (c.toNat - 48)) 0

/-- `parseFloat` applied to the canonical decimal amount strings of the
system (an optional integer part, an optional dot, an optional fractional
part), modelled exactly over the rationals. -/
def parseDecimal (s : String) : ℚ :=
  match s.splitOn "." with
  | [i] => (digitsToNat i.data : ℚ)
  | [i, f] => (digitsToNat i.data : ℚ) +
      (digitsToNat f.data : ℚ) / ((10 : ℚ) ^ f.length)
  | _ => 0

/-- Left-pad a string of digits with zeros up to length 6. -/
def padTo6 (s : String) : String :=
  String.mk (List.replicate (6 - s.length) '0') ++ s

/-- `Number.prototype.toFixed(6)` on the non-negative amounts of the
system: round to the nearest multiple of 10 ^ -6 (ties up) and render with
exactly six fractional digits. -/
def toFixed6 (q : ℚ) : String :=
  let n : Nat := (q * 1000000 + 1 / 2).floor.toNat
  toString (n / 1000000) ++ "." ++ padTo6 (toString (n % 1000000))

/-- `reduce((sum, auth) => sum + parseFloat(auth.amount), 0)`. -/
def sumAmounts (auths : List PaymentAuthorization) : ℚ :=
  auths.foldl (fun sum a => sum + parseDecimal a.amount) 0

/-- The signature payload: the eight immutable fields joined by a pipe,
numbers rendered in base 10 (FacilitatorService.verifySignature). -/
def signaturePayload (a : PaymentAuthorization) : String :=
  String.intercalate "|"
    [a.id, a.agentAddress, a.merchantAddress, a.amount, a.currency,
     toString a.timestamp, toString a.expiresAt, a.nonce]

/-- `verifySignature`: recompute the digest of the payload and compare with
the submitted signature. `hash` stands for the external hex SHA-256. -/
def verifySignature (hash : String → String) (a : PaymentAuthorization) : Bool :=
  hash (signaturePayload a) == a.signature

/-- `trackAgentUsage`: create the usage entry on the agent's first
authorization, then append the id, add the parsed amount, bump
`lastRequestAt` and `requestCount`. -/
def trackAgentUsage (now : Nat) (a : PaymentAuthorization)
    (u : List (String × AgentUsage)) : List (String × AgentUsage) :=
  match u.find? (fun p => p.1 == a.agentAddress) with
  | none =>
      u ++ [(a.agentAddress,
        { authorizations := [a.id]
          totalAmount := parseDecimal a.amount
          firstRequestAt := now
          lastRequestAt := now
          requestCount := 1 })]
  | some _ =>
      u.map fun p =>
        if p.1 == a.agentAddress then
          (p.1,
            { authorizations := p.2.authorizations ++ [a.id]
              totalAmount := p.2.totalAmount + parseDecimal a.amount
              firstRequestAt := p.2.firstRequestAt
              lastRequestAt := now
              requestCount := p.2.requestCount + 1 })
        else p

/-- Result of `verifyAuthorization`. -/
structure VerifyResult where
  valid : Bool
  reason : Option String := none
deriving DecidableEq, Repr

/-- `FacilitatorService.verifyAuthorization`: reject duplicates, expired
records and bad signatures, otherwise store the submitted record and track
agent usage. -/
def verifyAuthorization (hash : String → String) (now : Nat)
    (a : PaymentAuthorization) (s : FacilitatorState) :
    VerifyResult × FacilitatorState :=
  if (lookupAuth s.authorizations a.id).isSome then
    ({ valid := false, reason := some "Authorization already exists" }, s)
  else if a.expiresAt < now then
    ({ valid := false, reason := some "Authorization expired" }, s)
  else if verifySignature hash a = false then
    ({ valid := false, reason := some "Invalid signature" }, s)
  else
    ({ valid := true },
     { s with
        authorizations := s.authorizations ++ [a]
        agentUsage := trackAgentUsage now a s.agentUsage })

/-- The agent's queued authorizations: queue ids resolved through the store
and filtered by agent address (`checkSettlementThresholds` and
`createSettlementBatch` both start this way). -/
def queuedAuthorizationsFor (s : FacilitatorState) (agent : String) :
    List PaymentAuthorization :=
  (s.settlementQueue.filterMap (getAuthorization s)).filter
    (fun a => a.agentAddress == agent)

/-- `FacilitatorService.checkSettlementThresholds`: fires when the agent's
queued amount, the time since the agent's first request, or the queued
count reaches the configured thresholds. The queued set is filtered by
agent only, not by merchant. -/
def checkSettlementThresholds (now : Nat) (s : FacilitatorState)
    (agent : String) : Bool :=
  match lookupUsage s agent with
  | none => false
  | some usage =>
    let queued := queuedAuthorizationsFor s agent
    let queuedAmount := sumAmounts queued
    let queuedCount := queued.length
    let timeSinceFirst : ℚ := ((now : ℚ) - (usage.firstRequestAt : ℚ)) / 1000
    let amountThreshold := parseDecimal s.settlementThresholds.amountThreshold
    decide (queuedAmount ≥ amountThreshold) ||
      decide (timeSinceFirst ≥ (s.settlementThresholds.timeThreshold : ℚ)) ||
      decide (queuedCount ≥ s.settlementThresholds.countThreshold)

/-- Result of `queueForSettlement`. -/
structure QueueResult where
  success : Bool
  shouldSettle : Bool
  reason : Option String := none
deriving DecidableEq, Repr

/-- `FacilitatorService.queueForSettlement`: fail on unknown id, duplicate
queue entry or settled status; otherwise append the id to the queue, set
the status to validated and evaluate the thresholds on the updated state. -/
def queueForSettlement (now : Nat) (id : String) (s : FacilitatorState) :
    QueueResult × FacilitatorState :=
  match lookupAuth s.authorizations id with
  | none =>
      ({ success := false, shouldSettle := false,
         reason := some "Authorization not found" }, s)
  | some a =>
      if s.settlementQueue.contains id then
        ({ success := false, shouldSettle := false,
           reason := some "Already queued" }, s)
      else if a.status = AuthStatus.settled then
        ({ success := false, shouldSettle := false,
           reason := some "Already settled" }, s)
      else
        let s' := { s with
          settlementQueue := s.settlementQueue ++ [id]
          authorizations := setStatusIds s.authorizations [id] AuthStatus.validated }
        let shouldSettle := checkSettlementThresholds now s' a.agentAddress
        ({ success := true, shouldSettle := shouldSettle,
           reason := if shouldSettle then some "Settlement threshold met" else none },
         s')

/-- `FacilitatorService.listPendingAuthorizations`: the agent's stored
authorizations that are validated and currently queued. -/
def listPendingAuthorizations (s : FacilitatorState) (agent : String) :
    List PaymentAuthorization :=
  s.authorizations.filter fun a =>
    a.agentAddress == agent && decide (a.status = AuthStatus.validated) &&
      s.settlementQueue.contains a.id

/-- The merchant occurrence counts of `createSettlementBatch`, built in
first-seen order like the JavaScript `Map`. -/
def merchantCounts (auths : List PaymentAuthorization) : List (String × Nat) :=
  auths.foldl
    (fun counts a =>
      if counts.any (fun p => p.1 == a.merchantAddress) then
        counts.map fun p =>
          if p.1 == a.merchantAddress then (p.1, p.2 + 1) else p
      else counts ++ [(a.merchantAddress, 1)])
    []

/-- The merchant with the strictly largest count (first seen wins ties),
as computed by the `forEach` maximum scan over the counts map. -/
def pickTopMerchant (counts : List (String × Nat)) : Option String :=
  (counts.foldl
    (fun acc p => if p.2 > acc.2 then (some p.1, p.2) else acc)
    ((none : Option String), 0)).1

/-- The merchant a batch settles: the one given by the caller, or the one
with most queued entries for the agent. -/
def chosenMerchant (s : FacilitatorState) (agent : String)
    (merchant? : Option String) : Option String :=
  match merchant? with
  | some m => some m
  | none => pickTopMerchant (merchantCounts (queuedAuthorizationsFor s agent))

/-- The members of the batch `createSettlementBatch` builds: the agent's
queued authorizations filtered to the chosen merchant (a filter against an
absent merchant is empty, as in the source where a comparison with
undefined is always false). -/
def batchMembers (s : FacilitatorState) (agent : String)
    (merchant? : Option String) : List PaymentAuthorization :=
  (queuedAuthorizationsFor s agent).filter
    (fun a => some a.merchantAddress == chosenMerchant s agent merchant?)

/-- The batch record `createSettlementBatch` emits for members
first :: rest. -/
def builtBatch (now : Nat) (agent : String) (merchant? : Option String)
    (s : FacilitatorState) (first : PaymentAuthorization)
    (rest : List PaymentAuthorization) : SettlementBatch :=
  { id := "batch_" ++ toString now ++ "_" ++ agent.take 8
    agentAddress := agent
    merchantAddress := (chosenMerchant s agent merchant?).getD ""
    authorizationIds := (first :: rest).map (fun a => a.id)
    totalAmount := toFixed6 (sumAmounts (first :: rest))
    currency := first.currency
    status := BatchStatus.pending
    createdAt := now }

/-- `FacilitatorService.createSettlementBatch`: gather the agent's queued
authorizations, choose the merchant (given, or the one with most entries),
filter to that merchant, sum the parsed amounts formatted to six decimals,
and append a pending batch. The queue is not modified. -/
def createSettlementBatch (now : Nat) (agent : String)
    (merchant? : Option String) (s : FacilitatorState) :
    Option SettlementBatch × FacilitatorState :=
  if (queuedAuthorizationsFor s agent).isEmpty then (none, s)
  else
    match batchMembers s agent merchant? with
    | [] => (none, s)
    | first :: rest =>
      (some (builtBatch now agent merchant? s first rest),
       { s with settlementBatches :=
          s.settlementBatches ++ [builtBatch now agent merchant? s first rest] })

/-- Replace the first element satisfying the predicate, leaving the rest
alone (JavaScript mutates the object returned by `find` in place). -/
def replaceFirst {α : Type} (p : α → Bool) (f : α → α) : List α → List α
  | [] => []
  | x :: rest => if p x then f x :: rest else x :: replaceFirst p f rest

/-- Replace the first batch whose id matches. -/
def replaceFirstBatch (bs : List SettlementBatch) (id : String)
    (f : SettlementBatch → SettlementBatch) : List SettlementBatch :=
  replaceFirst (fun b => b.id == id) f bs

/-- Sequential `indexOf`/`splice` removal of the listed ids from the queue:
each id removes its first occurrence. -/
def eraseAll (queue : List String) (ids : List String) : List String :=
  ids.foldl (fun q id => q.erase id) queue

/-- `FacilitatorService.completeSettlement`: locate the batch (throwing
when unknown), mark it completed with `settledAt` and the transaction
signature, set every member to settled and remove its id from the queue. -/
def completeSettlement (now : Nat) (batchId : String) (txSig : String)
    (s : FacilitatorState) : Except String FacilitatorState :=
  match s.settlementBatches.find? (fun b => b.id == batchId) with
  | none => Except.error "Settlement batch not found"
  | some batch =>
      Except.ok { s with
        settlementBatches := replaceFirstBatch s.settlementBatches batchId
          (fun b => { b with
            status := BatchStatus.completed
            settledAt := some now
            transactionSignature := some txSig })
        authorizations :=
          setStatusIds s.authorizations batch.authorizationIds AuthStatus.settled
        settlementQueue := eraseAll s.settlementQueue batch.authorizationIds }

/-- `FacilitatorService.failSettlement`: mark the batch failed with the
error message and return every member to pending; queue membership is left
as it is. -/
def failSettlement (batchId : String) (msg : String) (s : FacilitatorState) :
    Except String FacilitatorState :=
  match s.settlementBatches.find? (fun b => b.id == batchId) with
  | none => Except.error "Settlement batch not found"
  | some batch =>
      Except.ok { s with
        settlementBatches := replaceFirstBatch s.settlementBatches batchId
          (fun b => { b with status := BatchStatus.failed, error := some msg })
        authorizations :=
          setStatusIds s.authorizations batch.authorizationIds AuthStatus.pending }

/-- Parameters of `createDispute`. -/
structure DisputeParams where
  authorizationId : String
  agentAddress : String
  reason : String
  evidence : Option String := none
deriving DecidableEq, Repr

/-- `FacilitatorService.createDispute`: require the authorization to exist
and belong to the caller, append a pending dispute, mark the authorization
disputed and remove it from the settlement queue. -/
def createDispute (now : Nat) (p : DisputeParams) (s : FacilitatorState) :
    Except String (DisputeRecord × FacilitatorState) :=
  match lookupAuth s.authorizations p.authorizationId with
  | none => Except.error "Authorization not found"
  | some a =>
      if a.agentAddress ≠ p.agentAddress then
        Except.error "Agent address mismatch"
      else
        let d : DisputeRecord :=
          { id := "dispute_" ++ toString now ++ "_" ++ p.authorizationId
            authorizationId := p.authorizationId
            agentAddress := p.agentAddress
            merchantAddress := a.merchantAddress
            reason := p.reason
            status := DisputeStatus.pending
            createdAt := now
            evidence := p.evidence }
        Except.ok (d, { s with
          disputes := s.disputes ++ [d]
          authorizations :=
            setStatusIds s.authorizations [p.authorizationId] AuthStatus.disputed
          settlementQueue := s.settlementQueue.erase p.authorizationId })

/-- The two admissible resolutions of `resolveDispute`. -/
inductive Resolution where
  | approved
  | rejected
deriving DecidableEq, Repr

/-- Replace the first dispute whose id matches. -/
def replaceFirstDispute (ds : List DisputeRecord) (id : String)
    (f : DisputeRecord → DisputeRecord) : List DisputeRecord :=
  replaceFirst (fun d => d.id == id) f ds

/-- `FacilitatorService.resolveDispute`: mark the dispute resolved with
`resolvedAt` and the note; when rejected, return the authorization to
validated and push its id back onto the queue; when approved, keep it
disputed. -/
def resolveDispute (now : Nat) (disputeId : String) (resolution : Resolution)
    (note : Option String) (s : FacilitatorState) :
    Except String FacilitatorState :=
  match s.disputes.find? (fun d => d.id == disputeId) with
  | none => Except.error "Dispute not found"
  | some dispute =>
      let s1 := { s with
        disputes := replaceFirstDispute s.disputes disputeId
          (fun d => { d with
            status := DisputeStatus.resolved
            resolvedAt := some now
            resolution := note }) }
      match lookupAuth s1.authorizations dispute.authorizationId with
      | none => Except.ok s1
      | some a =>
          if resolution = Resolution.rejected then
            Except.ok { s1 with
              authorizations :=
                setStatusIds s1.authorizations [a.id] AuthStatus.validated
              settlementQueue := s1.settlementQueue ++ [a.id] }
          else
            Except.ok { s1 with
              authorizations :=
                setStatusIds s1.authorizations [a.id] AuthStatus.disputed }

/-- The ids swept by `cleanupExpired`: expired while still pending. -/
def expiredPendingIds (now : Nat) (auths : List PaymentAuthorization) :
    List String :=
  (auths.filter fun a =>
      decide (a.expiresAt < now) && decide (a.status = AuthStatus.pending)).map
    (fun a => a.id)

/-- `FacilitatorService.cleanupExpired`: every authorization past its
expiry and still pending becomes expired and leaves the queue; returns the
number of records cleaned. -/
def cleanupExpired (now : Nat) (s : FacilitatorState) :
    Nat × FacilitatorState :=
  let ids := expiredPendingIds now s.authorizations
  (ids.length,
   { s with
      authorizations := s.authorizations.map fun a =>
        if decide (a.expiresAt < now) && decide (a.status = AuthStatus.pending) then
          { a with status := AuthStatus.expired }
        else a
      settlementQueue := eraseAll s.settlementQueue ids })

/-- `SettlementService.checkThresholds`: the same three threshold tests,
applied to a caller-supplied list of authorizations and usage record. The
scheduler calls it with the agent's validated queued authorizations
filtered to one merchant. -/
def settlementCheckThresholds (th : SettlementThreshold) (now : Nat)
    (auths : List PaymentAuthorization) (usage : AgentUsage) : Bool :=
  let totalAmount := sumAmounts auths
  let totalCount := auths.length
  let timeSinceFirst : ℚ := ((now : ℚ) - (usage.firstRequestAt : ℚ)) / 1000
  let amountThreshold := parseDecimal th.amountThreshold
  decide (totalAmount ≥ amountThreshold) ||
    decide (timeSinceFirst ≥ (th.timeThreshold : ℚ)) ||
    decide (totalCount ≥ th.countThreshold)

/-- The spec's set P for the threshold policy: the authorizations matching
an (agent, merchant) pair currently in the settlement queue. -/
def specQueuedPair (s : FacilitatorState) (agent merchant : String) :
    List PaymentAuthorization :=
  (s.settlementQueue.filterMap (getAuthorization s)).filter
    (fun a => a.agentAddress == agent && a.merchantAddress == merchant)

/-- States reachable by the core operations (verify, queueForSettlement,
createSettlementBatch, completeSettlement, failSettlement, createDispute,
resolveDispute, cleanupExpired) from a fresh service. Verification steps
are restricted to records submitted with status pending, which is the
producer contract: DeferredPaymentService.createAuthorization constructs
every submitted authorization with status pending. -/
inductive ReachableCore (hash : String → String) : FacilitatorState → Prop where
  | init (th : SettlementThreshold) : ReachableCore hash (initState th)
  | verify (s : FacilitatorState) (now : Nat) (a : PaymentAuthorization) :
      ReachableCore hash s → a.status = AuthStatus.pending →
      ReachableCore hash (verifyAuthorization hash now a s).2
  | queue (s : FacilitatorState) (now : Nat) (id : String) :
      ReachableCore hash s → ReachableCore hash (queueForSettlement now id s).2
  | batch (s : FacilitatorState) (now : Nat) (agent : String)
      (merchant? : Option String) :
      ReachableCore hash s →
      ReachableCore hash (createSettlementBatch now agent merchant? s).2
  | complete (s : FacilitatorState) (now : Nat) (bid sig : String)
      (s' : FacilitatorState) :
      ReachableCore hash s → completeSettlement now bid sig s = Except.ok s' →
      ReachableCore hash s'
  | fail (s : FacilitatorState) (bid msg : String) (s' : FacilitatorState) :
      ReachableCore hash s → failSettlement bid msg s = Except.ok s' →
      ReachableCore hash s'
  | dispute (s : FacilitatorState) (now : Nat) (p : DisputeParams)
      (d : DisputeRecord) (s' : FacilitatorState) :
      ReachableCore hash s → createDispute now p s = Except.ok (d, s') →
      ReachableCore hash s'
  | resolve (s : FacilitatorState) (now : Nat) (did : String) (r : Resolution)
      (note : Option String) (s' : FacilitatorState) :
      ReachableCore hash s → resolveDispute now did r note s = Except.ok s' →
      ReachableCore hash s'
  | cleanup (s : FacilitatorState) (now : Nat) :
      ReachableCore hash s → ReachableCore hash (cleanupExpired now s).2

/-- States reachable by the core operations without failSettlement and
without resolveDispute (verification steps unrestricted). -/
inductive ReachableNoFail (hash : String → String) : FacilitatorState → Prop where
  | init (th : SettlementThreshold) : ReachableNoFail hash (initState th)
  | verify (s : FacilitatorState) (now : Nat) (a : PaymentAuthorization) :
      ReachableNoFail hash s →
      ReachableNoFail hash (verifyAuthorization hash now a s).2
  | queue (s : FacilitatorState) (now : Nat) (id : String) :
      ReachableNoFail hash s → ReachableNoFail hash (queueForSettlement now id s).2
  | batch (s : FacilitatorState) (now : Nat) (agent : String)
      (merchant? : Option String) :
      ReachableNoFail hash s →
      ReachableNoFail hash (createSettlementBatch now agent merchant? s).2
  | complete (s : FacilitatorState) (now : Nat) (bid sig : String)
      (s' : FacilitatorState) :
      ReachableNoFail hash s → completeSettlement now bid sig s = Except.ok s' →
      ReachableNoFail hash s'
  | dispute (s : FacilitatorState) (now : Nat) (p : DisputeParams)
      (d : DisputeRecord) (s' : FacilitatorState) :
      ReachableNoFail hash s → createDispute now p s = Except.ok (d, s') →
      ReachableNoFail hash s'
  | cleanup (s : FacilitatorState) (now : Nat) :
      ReachableNoFail hash s → ReachableNoFail hash (cleanupExpired now s).2

/-- Concrete thresholds used by the examples: the defaults of the service
(amount 1.00, time 3600 s, count 100). -/
def th0 : SettlementThreshold :=
  { amountThreshold := "1.00", timeThreshold := 3600, countThreshold := 100 }

/-- A concrete stand-in for the external hex SHA-256 digest. -/
def hash0 : String → String := fun _ => "sig"

/-- Build a concrete authorization whose signature matches hash0. -/
def mkAuth (id agent merchant amount currency : String) (st : AuthStatus) :
    PaymentAuthorization :=
  { id := id
    agentAddress := agent
    merchantAddress := merchant
    toolName := "tool"
    amount := amount
    currency := currency
    timestamp := 5
    expiresAt := 1000000
    nonce := "n"
    signature := "sig"
    status := st }

/-- Extract the state of a successful stateful call, with a fallback. -/
def exceptStateD (e : Except String FacilitatorState) (d : FacilitatorState) :
    FacilitatorState :=
  match e with
  | Except.ok s => s
  | Except.error _ => d

/-- Extract the state of a successful createDispute, with a fallback. -/
def disputeStateD (e : Except String (DisputeRecord × FacilitatorState))
    (d : FacilitatorState) : FacilitatorState :=
  match e with
  | Except.ok p => p.2
  | Except.error _ => d

/-- Agent A submits 0.6 to merchant m1. -/
def aA1 : PaymentAuthorization := mkAuth "a1" "agentA" "m1" "0.6" "USDC" AuthStatus.pending

/-- Agent A submits 0.5 to merchant m2. -/
def aA2 : PaymentAuthorization := mkAuth "a2" "agentA" "m2" "0.5" "USDC" AuthStatus.pending

/-- Agent A trace: both authorizations verified and queued. -/
def sA1 : FacilitatorState := (verifyAuthorization hash0 10 aA1 (initState th0)).2

def sA2 : FacilitatorState := (verifyAuthorization hash0 11 aA2 sA1).2

def sA3 : FacilitatorState := (queueForSettlement 20 "a1" sA2).2

def sA4 : FacilitatorState := (queueForSettlement 21 "a2" sA3).2

/-- Single-authorization trace for the batch counterexamples: verify and
queue a1, then create a first batch for (agentA, m1). -/
def sB3 : FacilitatorState :=
  (createSettlementBatch 30 "agentA" (some "m1") (queueForSettlement 20 "a1" sA1).2).2

/-- The batch of sB3 fails on chain: its member returns to pending but its
id stays in the settlement queue. -/
def sFail : FacilitatorState :=
  exceptStateD (failSettlement "batch_30_agentA" "boom" sB3) sB3

/-- A second batch over the same still-queued entry, then both batches
completed. -/
def sB4 : FacilitatorState := (createSettlementBatch 31 "agentA" (some "m1") sB3).2

def sB5 : FacilitatorState :=
  exceptStateD (completeSettlement 40 "batch_30_agentA" "tx1" sB4) sB4

def sB6 : FacilitatorState :=
  exceptStateD (completeSettlement 41 "batch_31_agentA" "tx2" sB5) sB5

/-- Agent D trace: verify, dispute, then re-queue the disputed record. -/
def aD1 : PaymentAuthorization := mkAuth "d1" "agentD" "m1" "0.2" "USDC" AuthStatus.pending

def sD1 : FacilitatorState := (verifyAuthorization hash0 10 aD1 (initState th0)).2

def sD2 : FacilitatorState :=
  disputeStateD
    (createDispute 25
      { authorizationId := "d1", agentAddress := "agentD", reason := "r" } sD1)
    sD1

def sD3 : FacilitatorState := (queueForSettlement 26 "d1" sD2).2

/-- Agent C trace for the mixed-currency batch: same agent and merchant,
currencies USDC and EURC, both queued. -/
def aC1 : PaymentAuthorization := mkAuth "c1" "agentC" "m1" "0.3" "USDC" AuthStatus.pending

def aC2 : PaymentAuthorization := mkAuth "c2" "agentC" "m1" "0.4" "EURC" AuthStatus.pending

def sC2 : FacilitatorState :=
  (verifyAuthorization hash0 11 aC2 (verifyAuthorization hash0 10 aC1 (initState th0)).2).2

def sC4 : FacilitatorState :=
  (queueForSettlement 21 "c2" (queueForSettlement 20 "c1" sC2).2).2

/-- An authorization submitted with a non-pending status (the verify
counterexample). -/
def aV1 : PaymentAuthorization := mkAuth "v1" "agentV" "m1" "0.001" "USDC" AuthStatus.validated

/-- The dispute record created at 25 for d1. -/
def dD1 : DisputeRecord :=
  { id := "dispute_25_d1"
    authorizationId := "d1"
    agentAddress := "agentD"
    merchantAddress := "m1"
    reason := "r"
    status := DisputeStatus.pending
    createdAt := 25 }

/-- The first batch over a1 as it stands completed in sB6. -/
def bC30 : SettlementBatch :=
  { id := "batch_30_agentA"
    agentAddress := "agentA"
    merchantAddress := "m1"
    authorizationIds := ["a1"]
    totalAmount := "0.600000"
    currency := "USDC"
    status := BatchStatus.completed
    createdAt := 30
    settledAt := some 40
    transactionSignature := some "tx1" }

/-- The second batch over a1 as it stands completed in sB6. -/
def bC31 : SettlementBatch :=
  { id := "batch_31_agentA"
    agentAddress := "agentA"
    merchantAddress := "m1"
    authorizationIds := ["a1"]
    totalAmount := "0.600000"
    currency := "USDC"
    status := BatchStatus.completed
    createdAt := 31
    settledAt := some 41
    transactionSignature := some "tx2" }

/-- The inductive invariant behind C6: every queued id resolves to a
stored authorization with status validated, and the queue is
duplicate-free. -/
def QueueValidatedInv (s : FacilitatorState) : Prop :=
  (∀ id ∈ s.settlementQueue, ∃ a, lookupAuth s.authorizations id = some a ∧
    a.status = AuthStatus.validated) ∧ s.settlementQueue.Nodup

/-- The inductive invariant behind C8: every stored authorization with
status settled belongs to at least one batch with status completed. -/
def SettledHasBatchInv (s : FacilitatorState) : Prop :=
  ∀ a ∈ s.authorizations, a.status = AuthStatus.settled →
    ∃ b ∈ s.settlementBatches, b.status = BatchStatus.completed ∧
      a.id ∈ b.authorizationIds

/-! General lemmas about the store, queue and replace helpers. -/

theorem lookupAuth_append_of_none {auths l : List PaymentAuthorization}
    {j : String} (h : lookupAuth auths j = none) :
    lookupAuth (auths ++ l) j = lookupAuth l j := by
  simp only [lookupAuth] at *
  rw [List.find?_append, h, Option.none_or]

theorem lookupAuth_append_of_some {auths l : List PaymentAuthorization}
    {j : String} {x : PaymentAuthorization}
    (h : lookupAuth auths j = some x) :
    lookupAuth (auths ++ l) j = some x := by
  simp only [lookupAuth] at *
  rw [List.find?_append, h, Option.or_some]

theorem id_of_lookupAuth {auths : List PaymentAuthorization} {j : String}
    {a : PaymentAuthorization} (h : lookupAuth auths j = some a) : a.id = j := by
  have := List.find?_some h
  simpa using this

theorem setStatus_id (a : PaymentAuthorization) (ids : List String)
    (st : AuthStatus) :
    (if ids.contains a.id then { a with status := st } else a).id = a.id := by
  split <;> rfl

theorem lookupAuth_setStatusIds (auths : List PaymentAuthorization)
    (ids : List String) (st : AuthStatus) (j : String) :
    lookupAuth (setStatusIds auths ids st) j =
      (lookupAuth auths j).map
        (fun a => if ids.contains a.id then { a with status := st } else a) := by
  unfold lookupAuth setStatusIds
  rw [List.find?_map]
  have h : ((fun a : PaymentAuthorization => a.id == j) ∘
      fun a => if ids.contains a.id then { a with status := st } else a) =
      fun a : PaymentAuthorization => a.id == j := by
    funext a
    show ((if ids.contains a.id then { a with status := st } else a).id == j) =
      (a.id == j)
    rw [setStatus_id]
  rw [h]

theorem lookupAuth_setStatusIds_of_mem {auths : List PaymentAuthorization}
    {ids : List String} {st : AuthStatus} {j : String} {a : PaymentAuthorization}
    (h : lookupAuth auths j = some a) (hj : ids.contains j = true) :
    lookupAuth (setStatusIds auths ids st) j = some { a with status := st } := by
  have hid : a.id = j := id_of_lookupAuth h
  rw [lookupAuth_setStatusIds, h, Option.map_some', hid, if_pos hj]

theorem lookupAuth_setStatusIds_of_not_mem {auths : List PaymentAuthorization}
    {ids : List String} {st : AuthStatus} {j : String}
    (hj : ids.contains j = false) :
    lookupAuth (setStatusIds auths ids st) j = lookupAuth auths j := by
  rw [lookupAuth_setStatusIds]
  cases h : lookupAuth auths j with
  | none => rfl
  | some a =>
    have hid : a.id = j := id_of_lookupAuth h
    rw [Option.map_some', hid, if_neg]
    simpa using hj

theorem eraseAll_sublist (queue ids : List String) :
    List.Sublist (eraseAll queue ids) queue := by
  induction ids generalizing queue with
  | nil => exact List.Sublist.refl queue
  | cons m ms ih => exact List.Sublist.trans (ih (queue.erase m)) (List.erase_sublist m queue)

theorem mem_of_mem_eraseAll {queue ids : List String} {x : String}
    (h : x ∈ eraseAll queue ids) : x ∈ queue :=
  (eraseAll_sublist queue ids).subset h

theorem count_eraseAll_le (queue ids : List String) (x : String) :
    (eraseAll queue ids).count x ≤ queue.count x :=
  (eraseAll_sublist queue ids).count_le x

theorem not_mem_eraseAll_of_count_le_one {queue ids : List String} {x : String}
    (hc : queue.count x ≤ 1) (hx : x ∈ ids) : x ∉ eraseAll queue ids := by
  induction ids generalizing queue with
  | nil => cases hx
  | cons m ms ih =>
    simp only [eraseAll, List.foldl_cons] at *
    rcases List.mem_cons.mp hx with rfl | hxm
    · intro hmem
      have h1 : (eraseAll (queue.erase x) ms).count x ≤ (queue.erase x).count x :=
        count_eraseAll_le (queue.erase x) ms x
      have h2 : (queue.erase x).count x = queue.count x - 1 :=
        List.count_erase_self x queue
      have h3 : 0 < (eraseAll (queue.erase x) ms).count x :=
        List.count_pos_iff.mpr hmem
      omega
    · exact ih (Nat.le_trans ((List.erase_sublist m queue).count_le x) hc) hxm

theorem nodup_eraseAll {queue ids : List String} (h : queue.Nodup) :
    (eraseAll queue ids).Nodup :=
  h.sublist (eraseAll_sublist queue ids)

theorem mem_replaceFirst {α : Type} {p : α → Bool} {f : α → α} {l : List α}
    {x : α} (h : x ∈ l) :
    x ∈ replaceFirst p f l ∨ l.find? p = some x := by
  induction l with
  | nil => cases h
  | cons y ys ih =>
    by_cases hy : p y = true
    · rcases List.mem_cons.mp h with rfl | hx
      · right
        exact List.find?_cons_of_pos ys hy
      · left
        simp [replaceFirst, hy, hx]
    · have hy' : p y = false := by simpa using hy
      rcases List.mem_cons.mp h with rfl | hx
      · left
        simp [replaceFirst, hy']
      · rcases ih hx with h1 | h1
        · left
          simp [replaceFirst, hy', h1]
        · right
          rw [List.find?_cons_of_neg ys (by simp [hy'])]
          exact h1

theorem replaceFirst_mem_of_find? {α : Type} {p : α → Bool} {f : α → α}
    {l : List α} {x : α} (h : l.find? p = some x) :
    f x ∈ replaceFirst p f l := by
  induction l with
  | nil => simp at h
  | cons y ys ih =>
    cases hy : p y
    · rw [List.find?_cons_of_neg _ (by simp [hy])] at h
      simp only [replaceFirst, hy]
      simp [ih h]
    · rw [List.find?_cons_of_pos _ hy] at h
      cases h
      simp [replaceFirst, hy]

theorem mem_replaceFirst_of_mem_ne {α : Type} {p : α → Bool} {f : α → α}
    {l : List α} {x : α} (h : x ∈ l) (hne : l.find? p ≠ some x) :
    x ∈ replaceFirst p f l := by
  rcases mem_replaceFirst (p := p) (f := f) h with h1 | h1
  · exact h1
  · exact absurd h1 hne

theorem trackAgentUsage_new {now : Nat} {a : PaymentAuthorization}
    {u : List (String × AgentUsage)}
    (h : u.find? (fun p => p.1 == a.agentAddress) = none) :
    ((trackAgentUsage now a u).find? (fun p => p.1 == a.agentAddress)).map
        Prod.snd =
      some { authorizations := [a.id], totalAmount := parseDecimal a.amount,
             firstRequestAt := now, lastRequestAt := now, requestCount := 1 } := by
  unfold trackAgentUsage
  rw [h, List.find?_append, h, Option.none_or]
  simp

theorem trackAgentUsage_existing {now : Nat} {a : PaymentAuthorization}
    {u : List (String × AgentUsage)} {pu : String × AgentUsage}
    (h : u.find? (fun p => p.1 == a.agentAddress) = some pu) :
    ((trackAgentUsage now a u).find? (fun p => p.1 == a.agentAddress)).map
        Prod.snd =
      some { authorizations := pu.2.authorizations ++ [a.id]
             totalAmount := pu.2.totalAmount + parseDecimal a.amount
             firstRequestAt := pu.2.firstRequestAt
             lastRequestAt := now
             requestCount := pu.2.requestCount + 1 } := by
  have hkey : (pu.1 == a.agentAddress) = true := by
    have := List.find?_some h
    simpa using this
  unfold trackAgentUsage
  rw [h, List.find?_map]
  have hpred : ((fun p : String × AgentUsage => p.1 == a.agentAddress) ∘
      fun p => if p.1 == a.agentAddress then
        (p.1,
          { authorizations := p.2.authorizations ++ [a.id]
            totalAmount := p.2.totalAmount + parseDecimal a.amount
            firstRequestAt := p.2.firstRequestAt
            lastRequestAt := now
            requestCount := p.2.requestCount + 1 })
      else p) =
      fun p : String × AgentUsage => p.1 == a.agentAddress := by
    funext p
    by_cases hp : (p.1 == a.agentAddress) = true
    · simp [Function.comp, hp]
    · simp [Function.comp, hp]
  rw [hpred, h]
  have heq : pu.1 = a.agentAddress := by simpa using hkey
  simp [heq]

/-! Claim theorems. -/

/-- C10: for every stored authorization whose status is disputed or expired
and whose id is not currently in the settlement queue, queueForSettlement
succeeds, appends the id to the queue and sets the status to validated —
besides unknown ids and duplicate queue entries, only the settled status
blocks queueing. -/
theorem queueForSettlement_requeues_disputed_or_expired
    (now : Nat) (id : String) (s : FacilitatorState) (a : PaymentAuthorization)
    (ha : lookupAuth s.authorizations id = some a)
    (hst : a.status = AuthStatus.disputed ∨ a.status = AuthStatus.expired)
    (hq : s.settlementQueue.contains id = false) :
    (queueForSettlement now id s).1.success = true ∧
    (queueForSettlement now id s).2.settlementQueue =
      s.settlementQueue ++ [id] ∧
    lookupAuth (queueForSettlement now id s).2.authorizations id =
      some { a with status := AuthStatus.validated } := by
  have hns : ¬ a.status = AuthStatus.settled := by
    rcases hst with h | h <;> simp [h]
  unfold queueForSettlement
  rw [ha]
  dsimp only
  rw [if_neg (by simpa using hq), if_neg hns]
  exact ⟨rfl, rfl, lookupAuth_setStatusIds_of_mem ha (by simp)⟩

/-- C10 witness: in the concrete state sD2 the authorization d1 is stored
with status disputed and absent from the queue, and re-queueing it
succeeds, appends d1 and validates it. -/
theorem queueForSettlement_requeues_disputed_or_expired_witness :
    (queueForSettlement 26 "d1" sD2).1.success = true ∧
    (queueForSettlement 26 "d1" sD2).2.settlementQueue =
      sD2.settlementQueue ++ ["d1"] ∧
    lookupAuth (queueForSettlement 26 "d1" sD2).2.authorizations "d1" =
      some { aD1 with status := AuthStatus.validated } :=
  queueForSettlement_requeues_disputed_or_expired 26 "d1" sD2
    { aD1 with status := AuthStatus.disputed }
    (by with_unfolding_all rfl)
    (Or.inl rfl)
    (by with_unfolding_all rfl)

/-- C2: queueForSettlement fails with reason Authorization not found on an
unknown id, Already queued when the id is already in the settlement queue,
and Already settled when the stored authorization is settled; otherwise it
succeeds, appends the id to the queue, sets the stored status (pending on
the nominal path) to validated and returns shouldSettle equal to the
threshold check for the agent evaluated on the updated state. -/
theorem queueForSettlement_spec (now : Nat) (id : String)
    (s : FacilitatorState) :
    (lookupAuth s.authorizations id = none →
      queueForSettlement now id s =
        ({ success := false, shouldSettle := false,
           reason := some "Authorization not found" }, s)) ∧
    (∀ a, lookupAuth s.authorizations id = some a →
      s.settlementQueue.contains id = true →
      queueForSettlement now id s =
        ({ success := false, shouldSettle := false,
           reason := some "Already queued" }, s)) ∧
    (∀ a, lookupAuth s.authorizations id = some a →
      s.settlementQueue.contains id = false →
      a.status = AuthStatus.settled →
      queueForSettlement now id s =
        ({ success := false, shouldSettle := false,
           reason := some "Already settled" }, s)) ∧
    (∀ a, lookupAuth s.authorizations id = some a →
      s.settlementQueue.contains id = false →
      a.status ≠ AuthStatus.settled →
      (queueForSettlement now id s).1.success = true ∧
      (queueForSettlement now id s).2.settlementQueue =
        s.settlementQueue ++ [id] ∧
      lookupAuth (queueForSettlement now id s).2.authorizations id =
        some { a with status := AuthStatus.validated } ∧
      (queueForSettlement now id s).2.settlementBatches =
        s.settlementBatches ∧
      (queueForSettlement now id s).2.disputes = s.disputes ∧
      (∀ j, j ≠ id →
        lookupAuth (queueForSettlement now id s).2.authorizations j =
          lookupAuth s.authorizations j) ∧
      (queueForSettlement now id s).1.shouldSettle =
        checkSettlementThresholds now (queueForSettlement now id s).2
          a.agentAddress) := by
  refine ⟨?_, ?_, ?_, ?_⟩
  · intro h
    unfold queueForSettlement
    rw [h]
  · intro a ha hq
    unfold queueForSettlement
    rw [ha]
    dsimp only
    rw [if_pos hq]
  · intro a ha hq hsettled
    unfold queueForSettlement
    rw [ha]
    dsimp only
    rw [if_neg (by simpa using hq), if_pos hsettled]
  · intro a ha hq hns
    unfold queueForSettlement
    rw [ha]
    dsimp only
    rw [if_neg (by simpa using hq), if_neg hns]
    refine ⟨rfl, rfl, lookupAuth_setStatusIds_of_mem ha (by simp), rfl, rfl,
      ?_, rfl⟩
    intro j hj
    exact lookupAuth_setStatusIds_of_not_mem (by simp [hj])

/-- C2 witness: in sA3 the authorization a2 is stored and not yet queued,
and queueing it takes the success branch: it is appended, validated, and
shouldSettle is the threshold check on the updated state. -/
theorem queueForSettlement_spec_witness :
    (queueForSettlement 21 "a2" sA3).1.success = true ∧
    (queueForSettlement 21 "a2" sA3).2.settlementQueue =
      sA3.settlementQueue ++ ["a2"] ∧
    lookupAuth (queueForSettlement 21 "a2" sA3).2.authorizations "a2" =
      some { aA2 with status := AuthStatus.validated } ∧
    (queueForSettlement 21 "a2" sA3).2.settlementBatches =
      sA3.settlementBatches ∧
    (queueForSettlement 21 "a2" sA3).2.disputes = sA3.disputes ∧
    (∀ j, j ≠ "a2" →
      lookupAuth (queueForSettlement 21 "a2" sA3).2.authorizations j =
        lookupAuth sA3.authorizations j) ∧
    (queueForSettlement 21 "a2" sA3).1.shouldSettle =
      checkSettlementThresholds 21 (queueForSettlement 21 "a2" sA3).2
        "agentA" :=
  (queueForSettlement_spec 21 "a2" sA3).2.2.2 aA2
    (by with_unfolding_all rfl)
    (by with_unfolding_all rfl)
    (by with_unfolding_all decide)

/-- C5: resolveDispute marks the dispute resolved, sets resolvedAt and
records the note; when the resolution is rejected the referenced
authorization returns to validated and its id is re-appended to the
settlement queue, and when the resolution is approved the authorization
remains disputed and the queue is unchanged. -/
theorem resolveDispute_spec (now : Nat) (did : String) (r : Resolution)
    (note : Option String) (s : FacilitatorState) (d : DisputeRecord)
    (a : PaymentAuthorization)
    (hd : s.disputes.find? (fun x => x.id == did) = some d)
    (ha : lookupAuth s.authorizations d.authorizationId = some a) :
    ∃ s', resolveDispute now did r note s = Except.ok s' ∧
      ({ d with status := DisputeStatus.resolved, resolvedAt := some now,
                resolution := note } : DisputeRecord) ∈ s'.disputes ∧
      (r = Resolution.rejected →
        lookupAuth s'.authorizations a.id =
          some { a with status := AuthStatus.validated } ∧
        s'.settlementQueue = s.settlementQueue ++ [a.id]) ∧
      (r = Resolution.approved →
        lookupAuth s'.authorizations a.id =
          some { a with status := AuthStatus.disputed } ∧
        s'.settlementQueue = s.settlementQueue) := by
  have hmem := @replaceFirst_mem_of_find? DisputeRecord (fun x => x.id == did)
    (fun x => { x with
        status := DisputeStatus.resolved
        resolvedAt := some now
        resolution := note })
    s.disputes d hd
  have haid : a.id = d.authorizationId := id_of_lookupAuth ha
  have ha' : lookupAuth s.authorizations a.id = some a := by rw [haid]; exact ha
  unfold resolveDispute
  rw [hd]
  dsimp only
  rw [ha]
  dsimp only
  cases r with
  | rejected =>
    rw [if_pos rfl]
    refine ⟨_, rfl, hmem, ?_, ?_⟩
    · intro _
      exact ⟨lookupAuth_setStatusIds_of_mem ha' (by simp), rfl⟩
    · intro h
      cases h
  | approved =>
    rw [if_neg (by simp)]
    refine ⟨_, rfl, hmem, ?_, ?_⟩
    · intro h
      cases h
    · intro _
      exact ⟨lookupAuth_setStatusIds_of_mem ha' (by simp), rfl⟩

/-- C5 witness: resolving the concrete dispute of sD2 with rejection marks
it resolved with the note and returns d1 to validated, re-appending it to
the queue. -/
theorem resolveDispute_spec_witness :
    ∃ s', resolveDispute 35 "dispute_25_d1" Resolution.rejected
        (some "ok") sD2 = Except.ok s' ∧
      ({ id := "dispute_25_d1", authorizationId := "d1",
         agentAddress := "agentD", merchantAddress := "m1", reason := "r",
         status := DisputeStatus.resolved, createdAt := 25,
         resolvedAt := some 35, resolution := some "ok",
         evidence := none } : DisputeRecord) ∈ s'.disputes ∧
      (Resolution.rejected = Resolution.rejected →
        lookupAuth s'.authorizations "d1" =
          some { aD1 with status := AuthStatus.validated } ∧
        s'.settlementQueue = sD2.settlementQueue ++ ["d1"]) ∧
      (Resolution.rejected = Resolution.approved →
        lookupAuth s'.authorizations "d1" =
          some { aD1 with status := AuthStatus.disputed } ∧
        s'.settlementQueue = sD2.settlementQueue) :=
  resolveDispute_spec 35 "dispute_25_d1" Resolution.rejected (some "ok") sD2
    { id := "dispute_25_d1", authorizationId := "d1", agentAddress := "agentD",
      merchantAddress := "m1", reason := "r", status := DisputeStatus.pending,
      createdAt := 25, resolvedAt := none, resolution := none, evidence := none }
    { aD1 with status := AuthStatus.disputed }
    (by with_unfolding_all rfl)
    (by with_unfolding_all rfl)

theorem mem_queuedAuthorizationsFor {s : FacilitatorState} {agent : String}
    {a : PaymentAuthorization} (h : a ∈ queuedAuthorizationsFor s agent) :
    getAuthorization s a.id = some a ∧ a.agentAddress = agent ∧
      a.id ∈ s.settlementQueue := by
  unfold queuedAuthorizationsFor at h
  have h1 := List.mem_filter.mp h
  obtain ⟨id, hidq, hga⟩ := List.mem_filterMap.mp h1.1
  have hid : a.id = id := id_of_lookupAuth hga
  refine ⟨?_, ?_, ?_⟩
  · rw [hid]
    exact hga
  · simpa using h1.2
  · rw [hid]
    exact hidq

/-- C9 (amended): every batch produced by createSettlementBatch consists of
queued authorizations of the batch's agent that all share the batch's
merchant; its totalAmount is the sum of the members' parsed decimal amounts
formatted to six decimal places, its currency is the first member's, and
its status is pending. (The claim's further assertion that all members
share one currency is refuted separately: the member filter never looks at
the currency.) -/
theorem createSettlementBatch_spec (now : Nat) (agent : String)
    (merchant? : Option String) (s : FacilitatorState) (b : SettlementBatch)
    (hb : (createSettlementBatch now agent merchant? s).1 = some b) :
    ∃ first rest,
      b.authorizationIds = (first :: rest).map (fun a => a.id) ∧
      b.totalAmount = toFixed6 (sumAmounts (first :: rest)) ∧
      b.currency = first.currency ∧
      b.agentAddress = agent ∧
      b.status = BatchStatus.pending ∧
      ∀ a ∈ first :: rest,
        getAuthorization s a.id = some a ∧
        a.id ∈ s.settlementQueue ∧
        a.agentAddress = agent ∧
        a.merchantAddress = b.merchantAddress := by
  unfold createSettlementBatch at hb
  by_cases he : (queuedAuthorizationsFor s agent).isEmpty = true
  · rw [if_pos he] at hb
    simp at hb
  · rw [if_neg he] at hb
    cases hm : batchMembers s agent merchant? with
    | nil =>
      rw [hm] at hb
      simp at hb
    | cons first rest =>
      rw [hm] at hb
      dsimp only at hb
      have hbb := Option.some.inj hb
      subst hbb
      refine ⟨first, rest, rfl, rfl, rfl, rfl, rfl, ?_⟩
      intro a hamem
      have ham : a ∈ batchMembers s agent merchant? := by
        rw [hm]
        exact hamem
      unfold batchMembers at ham
      have h1 := List.mem_filter.mp ham
      have hq := mem_queuedAuthorizationsFor h1.1
      have hchosen : chosenMerchant s agent merchant? = some a.merchantAddress := by
        cases hc : chosenMerchant s agent merchant? with
        | none =>
          rw [hc] at h1
          simp at h1
        | some m =>
          have h2 := h1.2
          rw [hc] at h2
          simp at h2
          rw [h2]
      refine ⟨hq.1, hq.2.2, hq.2.1, ?_⟩
      show a.merchantAddress = (chosenMerchant s agent merchant?).getD ""
      rw [hchosen]
      rfl

/-- C9 counterexample: in the reachable state sC4 the agentC queue holds
c1 (currency USDC) and c2 (currency EURC) for the same merchant m1;
createSettlementBatch puts both into one batch (currency taken from the
first member), so the batch's member authorizations do not all share the
batch currency, refuting the shared-currency part of the invariant. -/
theorem createSettlementBatch_mixed_currencies :
    ((createSettlementBatch 30 "agentC" none sC4).1.map
        (fun b => (b.authorizationIds, b.currency))) =
      some (["c1", "c2"], "USDC") ∧
    (getAuthorization sC4 "c1").map (fun a => a.currency) = some "USDC" ∧
    (getAuthorization sC4 "c2").map (fun a => a.currency) = some "EURC" ∧
    "USDC" ≠ "EURC" :=
  ⟨by with_unfolding_all rfl, by with_unfolding_all rfl,
   by with_unfolding_all rfl, by decide⟩

/-- C9 witness: the batch of sC4 satisfies the amended description; in
particular batching the amounts 0.3 and 0.4 yields totalAmount 0.700000
(and the spec's 0.6 with 0.5 example evaluates to 1.100000). -/
theorem createSettlementBatch_spec_witness :
    (∃ b, (createSettlementBatch 30 "agentC" none sC4).1 = some b ∧
      ∃ first rest,
        b.authorizationIds = (first :: rest).map (fun a => a.id) ∧
        b.totalAmount = toFixed6 (sumAmounts (first :: rest)) ∧
        b.currency = first.currency ∧
        b.agentAddress = "agentC" ∧
        b.status = BatchStatus.pending ∧
        ∀ a ∈ first :: rest,
          getAuthorization sC4 a.id = some a ∧
          a.id ∈ sC4.settlementQueue ∧
          a.agentAddress = "agentC" ∧
          a.merchantAddress = b.merchantAddress) ∧
    toFixed6 (parseDecimal "0.6" + parseDecimal "0.5") = "1.100000" := by
  constructor
  · obtain ⟨b, hb⟩ : ∃ b, (createSettlementBatch 30 "agentC" none sC4).1 = some b :=
      ⟨_, by with_unfolding_all rfl⟩
    exact ⟨b, hb, createSettlementBatch_spec 30 "agentC" none sC4 b hb⟩
  · with_unfolding_all rfl

/-- C1 (amended): verifyAuthorization rejects with Authorization already
exists when the id is stored, with Authorization expired when expiresAt is
strictly below now, with Invalid signature when the recomputed digest of
the payload differs from the submitted signature, and otherwise returns
valid, stores the submitted record unchanged (so with status pending
exactly when the producer submitted it as pending) and updates the agent's
usage: append the id, add the parsed amount, bump requestCount, set
lastRequestAt, and initialize firstRequestAt on the agent's first entry. -/
theorem verifyAuthorization_spec (hash : String → String) (now : Nat)
    (a : PaymentAuthorization) (s : FacilitatorState) :
    ((lookupAuth s.authorizations a.id).isSome = true →
      verifyAuthorization hash now a s =
        ({ valid := false, reason := some "Authorization already exists" }, s)) ∧
    (lookupAuth s.authorizations a.id = none → a.expiresAt < now →
      verifyAuthorization hash now a s =
        ({ valid := false, reason := some "Authorization expired" }, s)) ∧
    (lookupAuth s.authorizations a.id = none → ¬ a.expiresAt < now →
      hash (signaturePayload a) ≠ a.signature →
      verifyAuthorization hash now a s =
        ({ valid := false, reason := some "Invalid signature" }, s)) ∧
    (lookupAuth s.authorizations a.id = none → ¬ a.expiresAt < now →
      hash (signaturePayload a) = a.signature →
      (verifyAuthorization hash now a s).1 =
        { valid := true, reason := none } ∧
      (verifyAuthorization hash now a s).2.authorizations =
        s.authorizations ++ [a] ∧
      lookupAuth (verifyAuthorization hash now a s).2.authorizations a.id =
        some a ∧
      (verifyAuthorization hash now a s).2.settlementQueue =
        s.settlementQueue ∧
      (verifyAuthorization hash now a s).2.settlementBatches =
        s.settlementBatches ∧
      (verifyAuthorization hash now a s).2.disputes = s.disputes ∧
      (lookupUsage s a.agentAddress = none →
        lookupUsage (verifyAuthorization hash now a s).2 a.agentAddress =
          some { authorizations := [a.id]
                 totalAmount := parseDecimal a.amount
                 firstRequestAt := now
                 lastRequestAt := now
                 requestCount := 1 }) ∧
      (∀ u, lookupUsage s a.agentAddress = some u →
        lookupUsage (verifyAuthorization hash now a s).2 a.agentAddress =
          some { authorizations := u.authorizations ++ [a.id]
                 totalAmount := u.totalAmount + parseDecimal a.amount
                 firstRequestAt := u.firstRequestAt
                 lastRequestAt := now
                 requestCount := u.requestCount + 1 })) := by
  refine ⟨?_, ?_, ?_, ?_⟩
  · intro h
    unfold verifyAuthorization
    rw [if_pos h]
  · intro h he
    unfold verifyAuthorization
    rw [if_neg (by simp [h]), if_pos he]
  · intro h he hs
    unfold verifyAuthorization
    rw [if_neg (by simp [h]), if_neg he,
      if_pos (by simp [verifySignature]; exact hs)]
  · intro h he hs
    unfold verifyAuthorization
    rw [if_neg (by simp [h]), if_neg he,
      if_neg (by simp [verifySignature]; exact hs)]
    refine ⟨rfl, rfl, ?_, rfl, rfl, rfl, ?_, ?_⟩
    · show lookupAuth (s.authorizations ++ [a]) a.id = some a
      rw [lookupAuth_append_of_none h]
      simp [lookupAuth]
    · intro hu
      have hfind : s.agentUsage.find? (fun p => p.1 == a.agentAddress) = none := by
        unfold lookupUsage at hu
        exact Option.map_eq_none'.mp hu
      show ((trackAgentUsage now a s.agentUsage).find?
        (fun p => p.1 == a.agentAddress)).map Prod.snd = _
      exact trackAgentUsage_new hfind
    · intro u hu
      unfold lookupUsage at hu
      obtain ⟨pu, hpu, hpu2⟩ := Option.map_eq_some'.mp hu
      show ((trackAgentUsage now a s.agentUsage).find?
        (fun p => p.1 == a.agentAddress)).map Prod.snd = _
      rw [trackAgentUsage_existing hpu, hpu2]

/-- C1 counterexample: verifyAuthorization stores the record exactly as
submitted; a valid submission carrying status validated is accepted and
stored with status validated, not pending, refuting the stores the record
with status pending part of the claim. -/
theorem verifyAuthorization_stores_submitted_status :
    (verifyAuthorization hash0 10 aV1 (initState th0)).1 =
      { valid := true, reason := none } ∧
    getAuthorization (verifyAuthorization hash0 10 aV1 (initState th0)).2
      "v1" = some aV1 ∧
    aV1.status = AuthStatus.validated ∧
    AuthStatus.validated ≠ AuthStatus.pending :=
  ⟨by with_unfolding_all rfl, by with_unfolding_all rfl, rfl, by decide⟩

/-- C1 witness: the first submission of aA1 against a fresh service is
accepted, stored, and creates the usage entry for agentA. -/
theorem verifyAuthorization_spec_witness :
    (verifyAuthorization hash0 10 aA1 (initState th0)).1 =
      { valid := true, reason := none } ∧
    lookupAuth (verifyAuthorization hash0 10 aA1 (initState th0)).2.authorizations
      aA1.id = some aA1 ∧
    lookupUsage (verifyAuthorization hash0 10 aA1 (initState th0)).2
      aA1.agentAddress =
      some { authorizations := [aA1.id]
             totalAmount := parseDecimal aA1.amount
             firstRequestAt := 10
             lastRequestAt := 10
             requestCount := 1 } := by
  have h := (verifyAuthorization_spec hash0 10 aA1 (initState th0)).2.2.2
    rfl (by with_unfolding_all decide) (by with_unfolding_all rfl)
  exact ⟨h.1, h.2.2.1, h.2.2.2.2.2.2.1 (by with_unfolding_all rfl)⟩

/-- C3 (amended): FacilitatorService.checkSettlementThresholds — the check
behind queueForSettlement's shouldSettle — fires iff one of the three
threshold tests holds for the set of ALL the agent's queued authorizations,
across every merchant, with meetsTime measured from the agent's first-ever
request (AgentUsage.firstRequestAt); only SettlementService.checkThresholds,
applied by the scheduler to the (agent, merchant)-filtered queued
authorizations, evaluates the claim's per-pair set P. -/
theorem settlementThresholds_spec (s : FacilitatorState)
    (agent merchant : String) (now : Nat) (u : AgentUsage)
    (hu : lookupUsage s agent = some u) :
    (checkSettlementThresholds now s agent = true ↔
      (sumAmounts (queuedAuthorizationsFor s agent) ≥
          parseDecimal s.settlementThresholds.amountThreshold ∨
        ((now : ℚ) - (u.firstRequestAt : ℚ)) / 1000 ≥
          (s.settlementThresholds.timeThreshold : ℚ) ∨
        (queuedAuthorizationsFor s agent).length ≥
          s.settlementThresholds.countThreshold)) ∧
    (settlementCheckThresholds s.settlementThresholds now
        (specQueuedPair s agent merchant) u = true ↔
      (sumAmounts (specQueuedPair s agent merchant) ≥
          parseDecimal s.settlementThresholds.amountThreshold ∨
        ((now : ℚ) - (u.firstRequestAt : ℚ)) / 1000 ≥
          (s.settlementThresholds.timeThreshold : ℚ) ∨
        (specQueuedPair s agent merchant).length ≥
          s.settlementThresholds.countThreshold)) := by
  constructor
  · unfold checkSettlementThresholds
    rw [hu]
    dsimp only
    simp [Bool.or_eq_true, decide_eq_true_eq]
    exact or_assoc
  · unfold settlementCheckThresholds
    simp [Bool.or_eq_true, decide_eq_true_eq]
    exact or_assoc

/-- C3 counterexample: in the reachable state sA4, agentA has 0.6 queued
for merchant m1 and 0.5 for merchant m2 — the only merchants present — the
thresholds are amount 1.00, time 3600 s, count 100, the agent's first
request was at 10 and now is 30. checkSettlementThresholds fires because
0.6 + 0.5 crosses the amount threshold across merchants, yet for each
(agent, merchant) pair the claim's set P meets no threshold: the
settlement check of the facilitator is not restricted to one merchant. -/
theorem checkSettlementThresholds_ignores_merchant :
    checkSettlementThresholds 30 sA4 "agentA" = true ∧
    (queuedAuthorizationsFor sA4 "agentA").map (fun a => a.merchantAddress) =
      ["m1", "m2"] ∧
    (lookupUsage sA4 "agentA").map (fun u => u.firstRequestAt) = some 10 ∧
    ¬ (sumAmounts (specQueuedPair sA4 "agentA" "m1") ≥
          parseDecimal sA4.settlementThresholds.amountThreshold ∨
        ((30 : ℚ) - (10 : ℚ)) / 1000 ≥
          (sA4.settlementThresholds.timeThreshold : ℚ) ∨
        (specQueuedPair sA4 "agentA" "m1").length ≥
          sA4.settlementThresholds.countThreshold) ∧
    ¬ (sumAmounts (specQueuedPair sA4 "agentA" "m2") ≥
          parseDecimal sA4.settlementThresholds.amountThreshold ∨
        ((30 : ℚ) - (10 : ℚ)) / 1000 ≥
          (sA4.settlementThresholds.timeThreshold : ℚ) ∨
        (specQueuedPair sA4 "agentA" "m2").length ≥
          sA4.settlementThresholds.countThreshold) :=
  ⟨by with_unfolding_all rfl, by with_unfolding_all rfl,
   by with_unfolding_all rfl, by with_unfolding_all decide,
   by with_unfolding_all decide⟩

/-- C3 witness: the amended characterization applied at sA4, whose usage
entry for agentA is concrete. -/
theorem settlementThresholds_spec_witness :
    (checkSettlementThresholds 30 sA4 "agentA" = true ↔
      (sumAmounts (queuedAuthorizationsFor sA4 "agentA") ≥
          parseDecimal sA4.settlementThresholds.amountThreshold ∨
        ((30 : ℚ) - ((10 : Nat) : ℚ)) / 1000 ≥
          (sA4.settlementThresholds.timeThreshold : ℚ) ∨
        (queuedAuthorizationsFor sA4 "agentA").length ≥
          sA4.settlementThresholds.countThreshold)) ∧
    (settlementCheckThresholds sA4.settlementThresholds 30
        (specQueuedPair sA4 "agentA" "m1")
        { authorizations := ["a1", "a2"]
          totalAmount := parseDecimal "0.6" + parseDecimal "0.5"
          firstRequestAt := 10
          lastRequestAt := 11
          requestCount := 2 } = true ↔
      (sumAmounts (specQueuedPair sA4 "agentA" "m1") ≥
          parseDecimal sA4.settlementThresholds.amountThreshold ∨
        ((30 : ℚ) - ((10 : Nat) : ℚ)) / 1000 ≥
          (sA4.settlementThresholds.timeThreshold : ℚ) ∨
        (specQueuedPair sA4 "agentA" "m1").length ≥
          sA4.settlementThresholds.countThreshold)) :=
  settlementThresholds_spec sA4 "agentA" "m1" 30
    { authorizations := ["a1", "a2"]
      totalAmount := parseDecimal "0.6" + parseDecimal "0.5"
      firstRequestAt := 10
      lastRequestAt := 11
      requestCount := 2 }
    (by with_unfolding_all rfl)

theorem find?_batch_append {bs : List SettlementBatch} {b : SettlementBatch}
    (h : ∀ x ∈ bs, x.id ≠ b.id) :
    (bs ++ [b]).find? (fun x => x.id == b.id) = some b := by
  rw [List.find?_append]
  have hn : bs.find? (fun x => x.id == b.id) = none :=
    List.find?_eq_none.mpr (by
      intro x hx
      simpa using h x hx)
  rw [hn, Option.none_or]
  simp

theorem completeSettlement_found {now4 : Nat} {bid sig : String}
    {s : FacilitatorState} {b : SettlementBatch}
    (hb : s.settlementBatches.find? (fun x => x.id == bid) = some b) :
    ∃ s', completeSettlement now4 bid sig s = Except.ok s' ∧
      s'.authorizations =
        setStatusIds s.authorizations b.authorizationIds AuthStatus.settled ∧
      s'.settlementQueue = eraseAll s.settlementQueue b.authorizationIds ∧
      s'.settlementBatches = replaceFirstBatch s.settlementBatches bid
        (fun x => { x with
          status := BatchStatus.completed
          settledAt := some now4
          transactionSignature := some sig }) ∧
      s'.agentUsage = s.agentUsage ∧ s'.disputes = s.disputes := by
  unfold completeSettlement
  rw [hb]
  exact ⟨_, rfl, rfl, rfl, rfl, rfl, rfl⟩

/-- C4: completeSettlement fails with Settlement batch not found on an
unknown batch id; on a known batch it marks it completed with settledAt and
the transaction signature, settles every member and removes each member id
from the settlement queue (the sole occurrence, the queue being
duplicate-free in ordinary operation); consequently an authorization taken
through verify, queueForSettlement, createSettlementBatch (with its
merchant) and completeSettlement ends settled and absent from the queue. -/
theorem completeSettlement_spec (hash : String → String)
    (now1 now2 now3 now4 : Nat) (bid sig : String) (a : PaymentAuthorization)
    (s : FacilitatorState) :
    (s.settlementBatches.find? (fun x => x.id == bid) = none →
      completeSettlement now4 bid sig s =
        Except.error "Settlement batch not found") ∧
    (∀ b, s.settlementBatches.find? (fun x => x.id == bid) = some b →
      ∃ s', completeSettlement now4 bid sig s = Except.ok s' ∧
        ({ b with
            status := BatchStatus.completed
            settledAt := some now4
            transactionSignature := some sig } : SettlementBatch) ∈
          s'.settlementBatches ∧
        (∀ id ∈ b.authorizationIds,
          lookupAuth s'.authorizations id =
            (lookupAuth s.authorizations id).map
              (fun x => { x with status := AuthStatus.settled })) ∧
        (∀ id ∈ b.authorizationIds, s.settlementQueue.count id ≤ 1 →
          id ∉ s'.settlementQueue)) ∧
    (lookupAuth s.authorizations a.id = none →
      ¬ a.expiresAt < now1 →
      hash (signaturePayload a) = a.signature →
      a.id ∉ s.settlementQueue →
      a.status ≠ AuthStatus.settled →
      (∀ x ∈ s.settlementBatches,
        x.id ≠ "batch_" ++ toString now3 ++ "_" ++ a.agentAddress.take 8) →
      ∃ b s4,
        (createSettlementBatch now3 a.agentAddress (some a.merchantAddress)
          (queueForSettlement now2 a.id
            (verifyAuthorization hash now1 a s).2).2).1 = some b ∧
        completeSettlement now4 b.id sig
          (createSettlementBatch now3 a.agentAddress (some a.merchantAddress)
            (queueForSettlement now2 a.id
              (verifyAuthorization hash now1 a s).2).2).2 = Except.ok s4 ∧
        (lookupAuth s4.authorizations a.id).map (fun x => x.status) =
          some AuthStatus.settled ∧
        a.id ∉ s4.settlementQueue) := by
  refine ⟨?_, ?_, ?_⟩
  · intro h
    unfold completeSettlement
    rw [h]
  · intro b hb
    obtain ⟨s', hok, hauths, hqueue, hbatches, _, _⟩ :=
      completeSettlement_found hb
    refine ⟨s', hok, ?_, ?_, ?_⟩
    · rw [hbatches]
      exact replaceFirst_mem_of_find? hb
    · intro id hid
      rw [hauths, lookupAuth_setStatusIds]
      cases hl : lookupAuth s.authorizations id with
      | none => rfl
      | some x =>
        have hx : x.id = id := id_of_lookupAuth hl
        rw [Option.map_some', Option.map_some', hx, if_pos (by simpa using hid)]
    · intro id hid hcount
      rw [hqueue]
      exact not_mem_eraseAll_of_count_le_one hcount hid
  · intro h1 h2 h3 h4 h5 h6
    obtain ⟨hv1, hvauths, hvlook, hvqueue, hvbatches, hvdisputes, _, _⟩ :=
      (verifyAuthorization_spec hash now1 a s).2.2.2 h1 h2 h3
    obtain ⟨hq1, hqqueue, hqlook, hqbatches, hqdisputes, hqother, hqshould⟩ :=
      (queueForSettlement_spec now2 a.id
        (verifyAuthorization hash now1 a s).2).2.2.2 a hvlook
        (by rw [hvqueue]; simpa using h4) h5
    set s2 := (queueForSettlement now2 a.id
      (verifyAuthorization hash now1 a s).2).2 with hs2
    have hqueue2 : s2.settlementQueue = s.settlementQueue ++ [a.id] := by
      rw [hqqueue, hvqueue]
    have hbat2 : s2.settlementBatches = s.settlementBatches := by
      rw [hqbatches, hvbatches]
    have hmem : ({ a with status := AuthStatus.validated } :
        PaymentAuthorization) ∈
        batchMembers s2 a.agentAddress (some a.merchantAddress) := by
      apply List.mem_filter.mpr
      refine ⟨?_, by simp [chosenMerchant]⟩
      apply List.mem_filter.mpr
      refine ⟨?_, by simp⟩
      apply List.mem_filterMap.mpr
      refine ⟨a.id, ?_, ?_⟩
      · rw [hqueue2]
        simp
      · exact hqlook
    have hne : (queuedAuthorizationsFor s2 a.agentAddress).isEmpty = false := by
      have hmem2 := (List.mem_filter.mp hmem).1
      cases hq : queuedAuthorizationsFor s2 a.agentAddress with
      | nil =>
        rw [hq] at hmem2
        cases hmem2
      | cons y ys => rfl
    cases hbm : batchMembers s2 a.agentAddress (some a.merchantAddress) with
    | nil =>
      rw [hbm] at hmem
      cases hmem
    | cons first rest =>
      have hb1 : createSettlementBatch now3 a.agentAddress
          (some a.merchantAddress) s2 =
          (some (builtBatch now3 a.agentAddress (some a.merchantAddress) s2
             first rest),
           { s2 with settlementBatches := s2.settlementBatches ++
             [builtBatch now3 a.agentAddress (some a.merchantAddress) s2
               first rest] }) := by
        unfold createSettlementBatch
        rw [if_neg (by simp [hne]), hbm]
      have hfind : ({ s2 with settlementBatches := s2.settlementBatches ++
          [builtBatch now3 a.agentAddress (some a.merchantAddress) s2
            first rest] } : FacilitatorState).settlementBatches.find?
          (fun x => x.id ==
            (builtBatch now3 a.agentAddress (some a.merchantAddress) s2
              first rest).id) =
          some (builtBatch now3 a.agentAddress (some a.merchantAddress) s2
            first rest) := by
        apply find?_batch_append
        intro x hx
        rw [hbat2] at hx
        exact h6 x hx
      obtain ⟨s4, hok, hauths4, hqueue4, _, _, _⟩ :=
        completeSettlement_found hfind
      have haid : a.id ∈ (builtBatch now3 a.agentAddress
          (some a.merchantAddress) s2 first rest).authorizationIds := by
        show a.id ∈ (first :: rest).map (fun x : PaymentAuthorization => x.id)
        apply List.mem_map.mpr
        refine ⟨{ a with status := AuthStatus.validated }, ?_, rfl⟩
        rw [hbm] at hmem
        exact hmem
      refine ⟨builtBatch now3 a.agentAddress (some a.merchantAddress) s2
        first rest, s4, ?_, ?_, ?_, ?_⟩
      · rw [hb1]
      · rw [hb1]
        exact hok
      · rw [hauths4]
        have hl := @lookupAuth_setStatusIds_of_mem s2.authorizations
          (builtBatch now3 a.agentAddress (some a.merchantAddress) s2
            first rest).authorizationIds AuthStatus.settled a.id
          { a with status := AuthStatus.validated } hqlook
          (by simpa using haid)
        rw [hl]
        rfl
      · rw [hqueue4]
        apply not_mem_eraseAll_of_count_le_one ?_ haid
        rw [hqueue2, List.count_append]
        have hc0 : s.settlementQueue.count a.id = 0 :=
          List.count_eq_zero.mpr h4
        simp [hc0]

/-- C4 witness: the full round trip for aA1 from a fresh service — verify,
queue, batch for (agentA, m1), complete with tx_abc — leaves a1 settled
and absent from the settlement queue. -/
theorem completeSettlement_spec_witness :
    ∃ b s4,
      (createSettlementBatch 30 aA1.agentAddress (some aA1.merchantAddress)
        (queueForSettlement 20 aA1.id
          (verifyAuthorization hash0 10 aA1 (initState th0)).2).2).1 =
        some b ∧
      completeSettlement 40 b.id "tx_abc"
        (createSettlementBatch 30 aA1.agentAddress (some aA1.merchantAddress)
          (queueForSettlement 20 aA1.id
            (verifyAuthorization hash0 10 aA1 (initState th0)).2).2).2 =
        Except.ok s4 ∧
      (lookupAuth s4.authorizations aA1.id).map (fun x => x.status) =
        some AuthStatus.settled ∧
      aA1.id ∉ s4.settlementQueue :=
  (completeSettlement_spec hash0 10 20 30 40 "unused" "tx_abc" aA1
    (initState th0)).2.2
    rfl
    (by with_unfolding_all decide)
    (by with_unfolding_all rfl)
    (by with_unfolding_all decide)
    (by with_unfolding_all decide)
    (by simp [initState])

/-- C7 (amended): immediately after a successful createDispute for an
authorization, the authorization is marked disputed and its id is absent
from the settlement queue (the queue holding at most one copy beforehand).
The claimed global invariant — a dispute for A keeps A out of the queue in
every reachable state — does not hold, because queueForSettlement later
re-queues a disputed authorization; see the counterexample. -/
theorem createDispute_removes_from_queue (now : Nat) (p : DisputeParams)
    (s : FacilitatorState) (d : DisputeRecord) (s' : FacilitatorState)
    (hok : createDispute now p s = Except.ok (d, s'))
    (hcount : s.settlementQueue.count p.authorizationId ≤ 1) :
    d.authorizationId = p.authorizationId ∧
    d.status = DisputeStatus.pending ∧
    d ∈ s'.disputes ∧
    p.authorizationId ∉ s'.settlementQueue ∧
    (lookupAuth s'.authorizations p.authorizationId).map (fun x => x.status) =
      some AuthStatus.disputed := by
  unfold createDispute at hok
  cases hl : lookupAuth s.authorizations p.authorizationId with
  | none =>
    rw [hl] at hok
    simp at hok
  | some a =>
    rw [hl] at hok
    dsimp only at hok
    by_cases hagent : a.agentAddress ≠ p.agentAddress
    · rw [if_pos hagent] at hok
      simp at hok
    · rw [if_neg hagent] at hok
      injection hok with hpair
      injection hpair with hd hs
      subst hd
      subst hs
      refine ⟨rfl, rfl, ?_, ?_, ?_⟩
      · simp
      · intro hmem
        have h1 : (s.settlementQueue.erase p.authorizationId).count
            p.authorizationId = s.settlementQueue.count p.authorizationId - 1 :=
          List.count_erase_self p.authorizationId s.settlementQueue
        have h2 : 0 < (s.settlementQueue.erase p.authorizationId).count
            p.authorizationId := List.count_pos_iff.mpr hmem
        omega
      · rw [lookupAuth_setStatusIds_of_mem hl (by simp)]
        rfl

/-- C7 counterexample: the state sD3 is reachable by the core operations
(verify d1, createDispute, queueForSettlement on the disputed d1, which
succeeds); its dispute is unresolved yet the referenced authorization d1 is
in the settlement queue, refuting the claimed invariant in both forms. -/
theorem dispute_requeue_breaks_absence :
    ReachableCore hash0 sD3 ∧
    dD1 ∈ sD3.disputes ∧
    dD1.status ≠ DisputeStatus.resolved ∧
    dD1.authorizationId ∈ sD3.settlementQueue := by
  refine ⟨?_, ?_, by decide, ?_⟩
  · have h1 : ReachableCore hash0 sD1 :=
      ReachableCore.verify (initState th0) 10 aD1 (ReachableCore.init th0) rfl
    have h2 : ReachableCore hash0 sD2 :=
      ReachableCore.dispute sD1 25
        { authorizationId := "d1", agentAddress := "agentD", reason := "r" }
        dD1 sD2 h1 (by with_unfolding_all rfl)
    exact ReachableCore.queue sD2 26 "d1" h2
  · have hds : sD3.disputes = [dD1] := by with_unfolding_all rfl
    rw [hds]
    simp
  · have hq : sD3.settlementQueue = ["d1"] := by with_unfolding_all rfl
    rw [hq]
    simp [dD1]

/-- C6 counterexample: the state sFail is reachable by the core operations
(verify a1, queue it, create a batch, failSettlement on that batch); the
member a1 is back to status pending but its id is still in the settlement
queue, refuting the queued-implies-validated invariant. -/
theorem queue_contains_pending_after_failSettlement :
    ReachableCore hash0 sFail ∧
    "a1" ∈ sFail.settlementQueue ∧
    (lookupAuth sFail.authorizations "a1").map (fun x => x.status) =
      some AuthStatus.pending ∧
    AuthStatus.pending ≠ AuthStatus.validated := by
  refine ⟨?_, ?_, by with_unfolding_all rfl, by decide⟩
  · have h1 : ReachableCore hash0 sA1 :=
      ReachableCore.verify (initState th0) 10 aA1 (ReachableCore.init th0) rfl
    have h2 : ReachableCore hash0 (queueForSettlement 20 "a1" sA1).2 :=
      ReachableCore.queue sA1 20 "a1" h1
    have h3 : ReachableCore hash0 sB3 :=
      ReachableCore.batch (queueForSettlement 20 "a1" sA1).2 30 "agentA"
        (some "m1") h2
    exact ReachableCore.fail sB3 "batch_30_agentA" "boom" sFail h3
      (by with_unfolding_all rfl)
  · have hq : sFail.settlementQueue = ["a1"] := by with_unfolding_all rfl
    rw [hq]
    simp

/-- C8 counterexample: the state sB6 is reachable by the core operations
(verify a1, queue it, create two batches over the still-queued entry,
complete both); a1 is settled but belongs to two distinct completed
batches, refuting the exactly-one-completed-batch invariant. -/
theorem settled_in_two_completed_batches :
    ReachableCore hash0 sB6 ∧
    (lookupAuth sB6.authorizations "a1").map (fun x => x.status) =
      some AuthStatus.settled ∧
    ¬ ∃! b : SettlementBatch, b ∈ sB6.settlementBatches ∧
        b.status = BatchStatus.completed ∧ "a1" ∈ b.authorizationIds := by
  have hbs : sB6.settlementBatches = [bC30, bC31] := by with_unfolding_all rfl
  refine ⟨?_, by with_unfolding_all rfl, ?_⟩
  · have h1 : ReachableCore hash0 sA1 :=
      ReachableCore.verify (initState th0) 10 aA1 (ReachableCore.init th0) rfl
    have h2 : ReachableCore hash0 (queueForSettlement 20 "a1" sA1).2 :=
      ReachableCore.queue sA1 20 "a1" h1
    have h3 : ReachableCore hash0 sB3 :=
      ReachableCore.batch (queueForSettlement 20 "a1" sA1).2 30 "agentA"
        (some "m1") h2
    have h4 : ReachableCore hash0 sB4 :=
      ReachableCore.batch sB3 31 "agentA" (some "m1") h3
    have h5 : ReachableCore hash0 sB5 :=
      ReachableCore.complete sB4 40 "batch_30_agentA" "tx1" sB5 h4
        (by with_unfolding_all rfl)
    exact ReachableCore.complete sB5 41 "batch_31_agentA" "tx2" sB6 h5
      (by with_unfolding_all rfl)
  · rintro ⟨b, hb, huniq⟩
    have h1 : bC30 = b := huniq bC30 (by rw [hbs]; exact ⟨by simp, by decide, by decide⟩)
    have h2 : bC31 = b := huniq bC31 (by rw [hbs]; exact ⟨by simp, by decide, by decide⟩)
    have : bC30 = bC31 := h1.trans h2.symm
    exact absurd this (by decide)

theorem lookupAuth_map_id_preserving {auths : List PaymentAuthorization}
    {f : PaymentAuthorization → PaymentAuthorization}
    (hf : ∀ x, (f x).id = x.id) (j : String) :
    lookupAuth (auths.map f) j = (lookupAuth auths j).map f := by
  unfold lookupAuth
  rw [List.find?_map]
  have h : ((fun a : PaymentAuthorization => a.id == j) ∘ f) =
      fun a : PaymentAuthorization => a.id == j := by
    funext x
    show ((f x).id == j) = (x.id == j)
    rw [hf]
  rw [h]

theorem contains_eq_false_of_not_mem {l : List String} {x : String}
    (h : x ∉ l) : l.contains x = false := by
  simpa using h

theorem invQV_verify (hash : String → String) (now : Nat)
    (a : PaymentAuthorization) (s : FacilitatorState)
    (h : QueueValidatedInv s) :
    QueueValidatedInv (verifyAuthorization hash now a s).2 := by
  unfold verifyAuthorization
  split
  · exact h
  · split
    · exact h
    · split
      · exact h
      · refine ⟨?_, h.2⟩
        intro id hid
        obtain ⟨a0, hl, hst⟩ := h.1 id hid
        exact ⟨a0, lookupAuth_append_of_some hl, hst⟩

theorem invQV_queue (now : Nat) (id : String) (s : FacilitatorState)
    (h : QueueValidatedInv s) :
    QueueValidatedInv (queueForSettlement now id s).2 := by
  unfold queueForSettlement
  cases ha : lookupAuth s.authorizations id with
  | none => exact h
  | some a =>
    dsimp only
    by_cases hq : s.settlementQueue.contains id = true
    · rw [if_pos hq]
      exact h
    · rw [if_neg hq]
      by_cases hs : a.status = AuthStatus.settled
      · rw [if_pos hs]
        exact h
      · rw [if_neg hs]
        dsimp only
        constructor
        · intro j hj
          rcases List.mem_append.mp hj with hj1 | hj2
          · obtain ⟨a0, hl, hst⟩ := h.1 j hj1
            have hne : j ≠ id := by
              intro hcontr
              subst hcontr
              exact hq (by simpa using hj1)
            refine ⟨a0, ?_, hst⟩
            rw [lookupAuth_setStatusIds_of_not_mem (by simp [hne])]
            exact hl
          · have hj' : j = id := by simpa using hj2
            subst hj'
            exact ⟨{ a with status := AuthStatus.validated },
              lookupAuth_setStatusIds_of_mem ha (by simp), rfl⟩
        · refine List.Nodup.append h.2 (List.nodup_singleton id) ?_
          intro x hx hx2
          have : x = id := by simpa using hx2
          subst this
          exact hq (by simpa using hx)

theorem invQV_batch (now : Nat) (agent : String) (merchant? : Option String)
    (s : FacilitatorState) (h : QueueValidatedInv s) :
    QueueValidatedInv (createSettlementBatch now agent merchant? s).2 := by
  unfold createSettlementBatch
  split
  · exact h
  · split
    · exact h
    · exact ⟨fun id hid => h.1 id hid, h.2⟩

theorem invQV_complete {now : Nat} {bid sig : String}
    {s s' : FacilitatorState}
    (hok : completeSettlement now bid sig s = Except.ok s')
    (h : QueueValidatedInv s) : QueueValidatedInv s' := by
  unfold completeSettlement at hok
  cases hb : s.settlementBatches.find? (fun x => x.id == bid) with
  | none =>
    rw [hb] at hok
    simp at hok
  | some batch =>
    rw [hb] at hok
    injection hok with hs
    subst hs
    constructor
    · intro j hj
      have hjq : j ∈ s.settlementQueue := mem_of_mem_eraseAll hj
      obtain ⟨a0, hl, hst⟩ := h.1 j hjq
      have hnm : j ∉ batch.authorizationIds := by
        intro hmem
        have hcount : s.settlementQueue.count j ≤ 1 :=
          List.nodup_iff_count_le_one.mp h.2 j
        exact not_mem_eraseAll_of_count_le_one hcount hmem hj
      refine ⟨a0, ?_, hst⟩
      rw [lookupAuth_setStatusIds_of_not_mem (contains_eq_false_of_not_mem hnm)]
      exact hl
    · exact nodup_eraseAll h.2

theorem invQV_dispute {now : Nat} {p : DisputeParams} {d : DisputeRecord}
    {s s' : FacilitatorState}
    (hok : createDispute now p s = Except.ok (d, s'))
    (h : QueueValidatedInv s) : QueueValidatedInv s' := by
  unfold createDispute at hok
  cases hl : lookupAuth s.authorizations p.authorizationId with
  | none =>
    rw [hl] at hok
    simp at hok
  | some a =>
    rw [hl] at hok
    dsimp only at hok
    by_cases hag : a.agentAddress ≠ p.agentAddress
    · rw [if_pos hag] at hok
      simp at hok
    · rw [if_neg hag] at hok
      injection hok with hpair
      injection hpair with hd hs
      subst hd
      subst hs
      constructor
      · intro j hj
        have hj' : j ∈ s.settlementQueue.erase p.authorizationId := hj
        have hjq : j ∈ s.settlementQueue := List.mem_of_mem_erase hj'
        obtain ⟨a0, hla, hst⟩ := h.1 j hjq
        have hne : j ≠ p.authorizationId := by
          intro hc
          subst hc
          have h1 := List.count_erase_self p.authorizationId s.settlementQueue
          have h2 := List.count_pos_iff.mpr hj'
          have h3 : s.settlementQueue.count p.authorizationId ≤ 1 :=
            List.nodup_iff_count_le_one.mp h.2 p.authorizationId
          omega
        refine ⟨a0, ?_, hst⟩
        rw [lookupAuth_setStatusIds_of_not_mem (by simp [hne])]
        exact hla
      · exact List.Nodup.erase _ h.2

theorem invQV_cleanup (now : Nat) (s : FacilitatorState)
    (h : QueueValidatedInv s) : QueueValidatedInv (cleanupExpired now s).2 := by
  unfold cleanupExpired
  dsimp only
  constructor
  · intro j hj
    have hjq : j ∈ s.settlementQueue := mem_of_mem_eraseAll hj
    obtain ⟨a0, hl, hst⟩ := h.1 j hjq
    refine ⟨a0, ?_, hst⟩
    rw [lookupAuth_map_id_preserving (by
      intro x
      split <;> rfl) j]
    rw [hl, Option.map_some']
    have hcond : (decide (a0.expiresAt < now) &&
        decide (a0.status = AuthStatus.pending)) = false := by
      simp [hst]
    rw [hcond]
    rfl
  · exact nodup_eraseAll h.2

/-- C6 (amended): in every state reachable by the core operations other
than failSettlement and resolveDispute, every authorization whose id is in
the settlement queue is stored with status validated. (failSettlement
returns batch members to pending while leaving their ids queued, and a
second resolveDispute on the same dispute can duplicate queue entries; the
counterexample exhibits the failSettlement violation.) -/
theorem queued_implies_validated_no_fail (hash : String → String)
    (s : FacilitatorState) (h : ReachableNoFail hash s) :
    ∀ id ∈ s.settlementQueue, ∃ a, lookupAuth s.authorizations id = some a ∧
      a.status = AuthStatus.validated := by
  have hinv : QueueValidatedInv s := by
    induction h with
    | init th =>
      exact ⟨(by intro id hid; cases hid), List.nodup_nil⟩
    | verify s now a _ ih => exact invQV_verify hash now a s ih
    | queue s now id _ ih => exact invQV_queue now id s ih
    | batch s now agent m _ ih => exact invQV_batch now agent m s ih
    | complete s now bid sig s' _ hok ih => exact invQV_complete hok ih
    | dispute s now p d s' _ hok ih => exact invQV_dispute hok ih
    | cleanup s now _ ih => exact invQV_cleanup now s ih
  exact hinv.1

/-- C6 witness: the invariant evaluated on a concrete reachable state with
a non-empty queue — after verifying and queueing a1, the queued id a1 is
validated. -/
theorem queued_implies_validated_no_fail_witness :
    ∃ a, lookupAuth (queueForSettlement 20 "a1" sA1).2.authorizations "a1" =
      some a ∧ a.status = AuthStatus.validated :=
  queued_implies_validated_no_fail hash0 (queueForSettlement 20 "a1" sA1).2
    (ReachableNoFail.queue sA1 20 "a1"
      (ReachableNoFail.verify (initState th0) 10 aA1
        (ReachableNoFail.init th0)))
    "a1" (by with_unfolding_all decide)

theorem invSB_verify (hash : String → String) (now : Nat)
    (a : PaymentAuthorization) (s : FacilitatorState)
    (hp : a.status = AuthStatus.pending) (h : SettledHasBatchInv s) :
    SettledHasBatchInv (verifyAuthorization hash now a s).2 := by
  unfold verifyAuthorization
  split
  · exact h
  · split
    · exact h
    · split
      · exact h
      · intro x hx hst
        rcases List.mem_append.mp hx with hx1 | hx2
        · exact h x hx1 hst
        · have hxa : x = a := by simpa using hx2
          subst hxa
          rw [hp] at hst
          cases hst

theorem invSB_queue (now : Nat) (id : String) (s : FacilitatorState)
    (h : SettledHasBatchInv s) :
    SettledHasBatchInv (queueForSettlement now id s).2 := by
  unfold queueForSettlement
  cases ha : lookupAuth s.authorizations id with
  | none => exact h
  | some a =>
    dsimp only
    by_cases hq : s.settlementQueue.contains id = true
    · rw [if_pos hq]
      exact h
    · rw [if_neg hq]
      by_cases hs : a.status = AuthStatus.settled
      · rw [if_pos hs]
        exact h
      · rw [if_neg hs]
        dsimp only
        intro x hx hst
        obtain ⟨y, hy, hxy⟩ := List.mem_map.mp hx
        subst hxy
        by_cases hc : ([id].contains y.id) = true
        · rw [if_pos hc] at hst
          cases hst
        · rw [if_neg hc] at hst ⊢
          exact h y hy hst

theorem invSB_batch (now : Nat) (agent : String) (merchant? : Option String)
    (s : FacilitatorState) (h : SettledHasBatchInv s) :
    SettledHasBatchInv (createSettlementBatch now agent merchant? s).2 := by
  unfold createSettlementBatch
  split
  · exact h
  · split
    · exact h
    · intro x hx hst
      obtain ⟨b, hb, hbc, hbid⟩ := h x hx hst
      exact ⟨b, List.mem_append_left _ hb, hbc, hbid⟩

theorem invSB_complete {now : Nat} {bid sig : String} {s s' : FacilitatorState}
    (hok : completeSettlement now bid sig s = Except.ok s')
    (h : SettledHasBatchInv s) : SettledHasBatchInv s' := by
  unfold completeSettlement at hok
  cases hb : s.settlementBatches.find? (fun x => x.id == bid) with
  | none =>
    rw [hb] at hok
    simp at hok
  | some batch =>
    rw [hb] at hok
    injection hok with hs
    subst hs
    intro x hx hst
    obtain ⟨y, hy, hxy⟩ := List.mem_map.mp hx
    subst hxy
    by_cases hc : (batch.authorizationIds.contains y.id) = true
    · rw [if_pos hc]
      refine ⟨{ batch with
          status := BatchStatus.completed
          settledAt := some now
          transactionSignature := some sig }, ?_, rfl, ?_⟩
      · exact replaceFirst_mem_of_find? hb
      · simpa using hc
    · rw [if_neg hc] at hst ⊢
      obtain ⟨b, hbm, hbc, hbid⟩ := h y hy hst
      rcases @mem_replaceFirst SettlementBatch (fun x => x.id == bid)
          (fun x => { x with
            status := BatchStatus.completed
            settledAt := some now
            transactionSignature := some sig })
          s.settlementBatches b hbm with hin | hfound
      · exact ⟨b, hin, hbc, hbid⟩
      · have hbb : batch = b := by
          rw [hb] at hfound
          exact Option.some.inj hfound
        subst hbb
        have hnm : y.id ∉ batch.authorizationIds := by simpa using hc
        exact absurd hbid hnm

theorem invSB_fail {bid msg : String} {s s' : FacilitatorState}
    (hok : failSettlement bid msg s = Except.ok s')
    (h : SettledHasBatchInv s) : SettledHasBatchInv s' := by
  unfold failSettlement at hok
  cases hb : s.settlementBatches.find? (fun x => x.id == bid) with
  | none =>
    rw [hb] at hok
    simp at hok
  | some batch =>
    rw [hb] at hok
    injection hok with hs
    subst hs
    intro x hx hst
    obtain ⟨y, hy, hxy⟩ := List.mem_map.mp hx
    subst hxy
    by_cases hc : (batch.authorizationIds.contains y.id) = true
    · rw [if_pos hc] at hst
      cases hst
    · rw [if_neg hc] at hst ⊢
      obtain ⟨b, hbm, hbc, hbid⟩ := h y hy hst
      rcases @mem_replaceFirst SettlementBatch (fun x => x.id == bid)
          (fun x => { x with status := BatchStatus.failed, error := some msg })
          s.settlementBatches b hbm with hin | hfound
      · exact ⟨b, hin, hbc, hbid⟩
      · have hbb : batch = b := by
          rw [hb] at hfound
          exact Option.some.inj hfound
        subst hbb
        have hnm : y.id ∉ batch.authorizationIds := by simpa using hc
        exact absurd hbid hnm

theorem invSB_dispute {now : Nat} {p : DisputeParams} {d : DisputeRecord}
    {s s' : FacilitatorState}
    (hok : createDispute now p s = Except.ok (d, s'))
    (h : SettledHasBatchInv s) : SettledHasBatchInv s' := by
  unfold createDispute at hok
  cases hl : lookupAuth s.authorizations p.authorizationId with
  | none =>
    rw [hl] at hok
    simp at hok
  | some a =>
    rw [hl] at hok
    dsimp only at hok
    by_cases hag : a.agentAddress ≠ p.agentAddress
    · rw [if_pos hag] at hok
      simp at hok
    · rw [if_neg hag] at hok
      injection hok with hpair
      injection hpair with hd hs
      subst hd
      subst hs
      intro x hx hst
      obtain ⟨y, hy, hxy⟩ := List.mem_map.mp hx
      subst hxy
      by_cases hc : ([p.authorizationId].contains y.id) = true
      · rw [if_pos hc] at hst
        cases hst
      · rw [if_neg hc] at hst ⊢
        obtain ⟨b, hbm, hbc, hbid⟩ := h y hy hst
        exact ⟨b, hbm, hbc, hbid⟩

theorem invSB_resolve {now : Nat} {did : String} {r : Resolution}
    {note : Option String} {s s' : FacilitatorState}
    (hok : resolveDispute now did r note s = Except.ok s')
    (h : SettledHasBatchInv s) : SettledHasBatchInv s' := by
  unfold resolveDispute at hok
  cases hd : s.disputes.find? (fun x => x.id == did) with
  | none =>
    rw [hd] at hok
    simp at hok
  | some dispute =>
    rw [hd] at hok
    dsimp only at hok
    cases hl : lookupAuth s.authorizations dispute.authorizationId with
    | none =>
      rw [hl] at hok
      injection hok with hs
      subst hs
      intro x hx hst
      exact h x hx hst
    | some a =>
      rw [hl] at hok
      dsimp only at hok
      by_cases hr : r = Resolution.rejected
      · rw [if_pos hr] at hok
        injection hok with hs
        subst hs
        intro x hx hst
        obtain ⟨y, hy, hxy⟩ := List.mem_map.mp hx
        subst hxy
        by_cases hc : ([a.id].contains y.id) = true
        · rw [if_pos hc] at hst
          cases hst
        · rw [if_neg hc] at hst ⊢
          exact h y hy hst
      · rw [if_neg hr] at hok
        injection hok with hs
        subst hs
        intro x hx hst
        obtain ⟨y, hy, hxy⟩ := List.mem_map.mp hx
        subst hxy
        by_cases hc : ([a.id].contains y.id) = true
        · rw [if_pos hc] at hst
          cases hst
        · rw [if_neg hc] at hst ⊢
          exact h y hy hst

theorem invSB_cleanup (now : Nat) (s : FacilitatorState)
    (h : SettledHasBatchInv s) :
    SettledHasBatchInv (cleanupExpired now s).2 := by
  unfold cleanupExpired
  dsimp only
  intro x hx hst
  obtain ⟨y, hy, hxy⟩ := List.mem_map.mp hx
  subst hxy
  by_cases hc : (decide (y.expiresAt < now) &&
      decide (y.status = AuthStatus.pending)) = true
  · rw [if_pos hc] at hst
    cases hst
  · rw [if_neg hc] at hst ⊢
    exact h y hy hst

/-- C8 (amended): in every state reachable by the core operations — with
submitted records carrying status pending, the producer's contract — every
authorization whose status is settled belongs to AT LEAST one batch whose
status is completed. Exact uniqueness fails: createSettlementBatch does not
drain the queue, so two batches can capture the same authorization and
both be completed (see the counterexample). -/
theorem settled_has_completed_batch (hash : String → String)
    (s : FacilitatorState) (h : ReachableCore hash s) :
    ∀ a ∈ s.authorizations, a.status = AuthStatus.settled →
      ∃ b ∈ s.settlementBatches, b.status = BatchStatus.completed ∧
        a.id ∈ b.authorizationIds := by
  induction h with
  | init th =>
    intro a ha
    cases ha
  | verify s now a _ hp ih => exact invSB_verify hash now a s hp ih
  | queue s now id _ ih => exact invSB_queue now id s ih
  | batch s now agent m _ ih => exact invSB_batch now agent m s ih
  | complete s now bid sig s' _ hok ih => exact invSB_complete hok ih
  | fail s bid msg s' _ hok ih => exact invSB_fail hok ih
  | dispute s now p d s' _ hok ih => exact invSB_dispute hok ih
  | resolve s now did r note s' _ hok ih => exact invSB_resolve hok ih
  | cleanup s now _ ih => exact invSB_cleanup now s ih

/-- C8 witness: in the reachable state sB5 the settled authorization a1
has a completed containing batch. -/
theorem settled_has_completed_batch_witness :
    ∃ b ∈ sB5.settlementBatches, b.status = BatchStatus.completed ∧
      ({ aA1 with status := AuthStatus.settled } :
        PaymentAuthorization).id ∈ b.authorizationIds := by
  have h1 : ReachableCore hash0 sA1 :=
    ReachableCore.verify (initState th0) 10 aA1 (ReachableCore.init th0) rfl
  have h2 : ReachableCore hash0 (queueForSettlement 20 "a1" sA1).2 :=
    ReachableCore.queue sA1 20 "a1" h1
  have h3 : ReachableCore hash0 sB3 :=
    ReachableCore.batch (queueForSettlement 20 "a1" sA1).2 30 "agentA"
      (some "m1") h2
  have h4 : ReachableCore hash0 sB4 :=
    ReachableCore.batch sB3 31 "agentA" (some "m1") h3
  have h5 : ReachableCore hash0 sB5 :=
    ReachableCore.complete sB4 40 "batch_30_agentA" "tx1" sB5 h4
      (by with_unfolding_all rfl)
  exact settled_has_completed_batch hash0 sB5 h5
    { aA1 with status := AuthStatus.settled }
    (by
      have hl : sB5.authorizations =
          [{ aA1 with status := AuthStatus.settled }] := by
        with_unfolding_all rfl
      rw [hl]
      simp)
    rfl

/-- C7 witness: creating the concrete dispute on d1 in sD1 marks d1
disputed and leaves the queue without it. -/
theorem createDispute_removes_from_queue_witness :
    dD1.authorizationId = "d1" ∧
    dD1.status = DisputeStatus.pending ∧
    dD1 ∈ sD2.disputes ∧
    "d1" ∉ sD2.settlementQueue ∧
    (lookupAuth sD2.authorizations "d1").map (fun x => x.status) =
      some AuthStatus.disputed :=
  createDispute_removes_from_queue 25
    { authorizationId := "d1", agentAddress := "agentD", reason := "r" }
    sD1 dD1 sD2 (by with_unfolding_all rfl) (by with_unfolding_all decide)
